import Mathlib

/-!
Verification development for the foot_measure point-cloud pipeline
(src/process.py).  The Python code is shallowly embedded here: point
coordinates are exact rationals (lifted to the reals where the code
computes square roots or trigonometric functions), numpy arrays become
lists, and the two external routines whose results the pipeline merely
consumes (Open3D's randomized `segment_plane` RANSAC and sklearn's PCA
first component) are passed in as oracle parameters.  The two Open3D
denoising filters, whose algorithms the specification states but whose
code lives outside the repository, are modelled from the spec.

The file is organized as definitions first, then theorems.
-/

namespace FootMeasure

/-- A 3-D point `(x, (y, z))`. -/
abbrev Pt (α : Type) := α × α × α

/-- A 2-D point `(y, z)` of a cross-section projection. -/
abbrev Pt2 (α : Type) := α × α

/-- Embedding of numpy `.min()` on a (nonempty) 1-D array; callers in the
source guard against empty arrays, the `[]` case is an unused total-function
default. -/
def listMin {α : Type} [LinearOrderedField α] : List α → α
  | [] => 0
  | a :: r => r.foldl min a

/-- Embedding of numpy `.max()` on a (nonempty) 1-D array. -/
def listMax {α : Type} [LinearOrderedField α] : List α → α
  | [] => 0
  | a :: r => r.foldl max a

/-- The pipeline's point-cloud value: positions plus the optional normal and
color attribute arrays carried by the Open3D `PointCloud` object. -/
structure Cloud (α : Type) where
  points  : List (Pt α)
  normals : Option (List (Pt α)) := none
  colors  : Option (List (Pt α)) := none
deriving DecidableEq

/-- Embedding of `PointCloudProcessor.flip_y_axis` (src/process.py:77-85):
`points[:, 1] = -points[:, 1]`; the normal and color arrays are untouched. -/
def flip_y_axis {α : Type} [LinearOrderedField α] (c : Cloud α) : Cloud α :=
  { c with points := c.points.map (fun p => (p.1, -p.2.1, p.2.2)) }

/-- Embedding of Open3D `select_by_index(idxs, invert=True)` on one attribute
array: keep, in order, the entries whose index does not occur in `idxs`. -/
def keepComplement {β : Type} (idxs : List ℕ) (l : List β) : List β :=
  (l.enum.filter (fun ip => !(idxs.contains ip.1))).map (·.2)

/-- Embedding of `PointCloudProcessor.remove_planes` (src/process.py:87-120).
The RANSAC plane search (`segment_plane`, an external Open3D routine) is
abstracted by the oracle argument `inliers`: the inlier index set of the
winning hypothesis.  The method skips (cloud unchanged) when the cloud has
fewer than 100 points or the winning hypothesis has fewer than 50 inliers;
otherwise it keeps the complement of the inliers in every attribute array. -/
def remove_planes {α : Type} [LinearOrderedField α]
    (inliers : List ℕ) (c : Cloud α) : Cloud α :=
  if c.points.length < 100 then c
  else if inliers.length < 50 then c
  else
    { points  := keepComplement inliers c.points
      normals := c.normals.map (keepComplement inliers)
      colors  := c.colors.map (keepComplement inliers) }

/-- Attribute arrays present on a cloud have the same length as the position
array (the data-model invariant of spec section 3). -/
def WellFormed {α : Type} (c : Cloud α) : Prop :=
  (∀ ns, c.normals = some ns → ns.length = c.points.length) ∧
  (∀ cs, c.colors = some cs → cs.length = c.points.length)

section Geometry

variable {α : Type} [LinearOrderedField α]

/-- Squared Euclidean distance of two 2-D points. -/
def sqDist2 (p q : Pt2 α) : α := (q.1 - p.1) ^ 2 + (q.2 - p.2) ^ 2

/-- Embedding of `np.linalg.norm(p2 - p1)` for 2-D points: the exact real
Euclidean distance, via a coordinate cast `toR` into the reals. -/
noncomputable def dist2R (toR : α → ℝ) (p q : Pt2 α) : ℝ :=
  Real.sqrt (toR (sqDist2 p q))

/-- The x column `points[:, 0]`. -/
def ptsX (pts : List (Pt α)) : List α := pts.map (·.1)

/-- The z column `points[:, 2]`. -/
def ptsZ (pts : List (Pt α)) : List α := pts.map (·.2.2)

def xMinP (pts : List (Pt α)) : α := listMin (ptsX pts)
def xMaxP (pts : List (Pt α)) : α := listMax (ptsX pts)
def zMinP (pts : List (Pt α)) : α := listMin (ptsZ pts)
def zMaxP (pts : List (Pt α)) : α := listMax (ptsZ pts)

/-- Embedding of `np.linspace(x_min, x_max, 51)[i]`, the i-th slice edge of
`calculate_circumference_at_max_z_range` (src/process.py:255). -/
def binEdge (pts : List (Pt α)) (i : ℕ) : α :=
  xMinP pts + (xMaxP pts - xMinP pts) * i / 50

/-- Midpoint `(x_start + x_end) / 2` of slice `i` (src/process.py:270). -/
def binMid (pts : List (Pt α)) (i : ℕ) : α :=
  (binEdge pts i + binEdge pts (i + 1)) / 2

/-- The points of slice `i`: mask `x_start <= x <= x_end`
(src/process.py:263). -/
def sliceAt (pts : List (Pt α)) (i : ℕ) : List (Pt α) :=
  pts.filter (fun p => decide (binEdge pts i ≤ p.1 ∧ p.1 ≤ binEdge pts (i + 1)))

/-- `z.max() - z.min()` of a (nonempty) point list (src/process.py:267). -/
def zSpread (l : List (Pt α)) : α := zMaxP l - zMinP l

/-- Embedding of the slice-scanning loop of
`calculate_circumference_at_max_z_range` (src/process.py:257-270): fold over
the 50 slices carrying `(best_x_pos, max_z_range)`, updating only when the
slice is nonempty and its z-spread strictly exceeds the current maximum. -/
def bestSlice (pts : List (Pt α)) : Option α × α :=
  (List.range 50).foldl
    (fun st i =>
      if sliceAt pts i ≠ [] ∧ st.2 < zSpread (sliceAt pts i) then
        (some (binMid pts i), zSpread (sliceAt pts i))
      else st)
    (none, 0)

/-- Abstract strict-improvement scan; `bestSlice` is an instance of it
(payload `binMid`, value `sliceSpreadAt`). -/
def strictScan {β : Type} (g : ℕ → β) (f : ℕ → α) (st : Option β × α)
    (idxs : List ℕ) : Option β × α :=
  idxs.foldl (fun st i => if st.2 < f i then (some (g i), f i) else st) st

/-- Running maximum of `f` over `idxs` starting from `m`. -/
def runMax (f : ℕ → α) (m : α) (idxs : List ℕ) : α :=
  idxs.foldl (fun acc i => max acc (f i)) m

/-- The widened extraction window width
`(x_max - x_min) / num_slices * 1.5` (src/process.py:279). -/
def sliceWidth (pts : List (Pt α)) : α := (xMaxP pts - xMinP pts) / 50 * (3 / 2)

/-- Cross-section re-extraction: all points whose x lies within half the
widened slice width of `bx` (src/process.py:280). -/
def windowPts (pts : List (Pt α)) (bx : α) : List (Pt α) :=
  pts.filter (fun p =>
    decide (bx - sliceWidth pts / 2 ≤ p.1 ∧ p.1 ≤ bx + sliceWidth pts / 2))

/-- Projection onto the (y, z) plane (src/process.py:291). -/
def yzProj (pts : List (Pt α)) : List (Pt2 α) := pts.map (fun p => (p.2.1, p.2.2))

/-- The lexicographic order `(y, then z)` used by
`np.lexsort((yz[:,1], yz[:,0]))` (src/process.py:300). -/
def lexLe (a b : Pt2 α) : Prop := a.1 < b.1 ∨ (a.1 = b.1 ∧ a.2 ≤ b.2)

instance : DecidableRel (lexLe (α := α)) := fun a b => by
  unfold lexLe; exact inferInstance

instance : IsTotal (Pt2 α) lexLe :=
  ⟨fun a b => by
    unfold lexLe
    rcases lt_trichotomy a.1 b.1 with h | h | h
    · exact Or.inl (Or.inl h)
    · rcases le_total a.2 b.2 with h2 | h2
      · exact Or.inl (Or.inr ⟨h, h2⟩)
      · exact Or.inr (Or.inr ⟨h.symm, h2⟩)
    · exact Or.inr (Or.inl h)⟩

instance : IsTrans (Pt2 α) lexLe :=
  ⟨fun a b c hab hbc => by
    unfold lexLe at *
    rcases hab with h1 | ⟨h1, h1'⟩
    · rcases hbc with h2 | ⟨h2, _⟩
      · exact Or.inl (h1.trans h2)
      · exact Or.inl (h2 ▸ h1)
    · rcases hbc with h2 | ⟨h2, h2'⟩
      · exact Or.inl (h1 ▸ h2)
      · exact Or.inr ⟨h1.trans h2, h1'.trans h2'⟩⟩

/-- Stable sort by `(y, then z)` (embeds the `np.lexsort` call). -/
def lexSort (l : List (Pt2 α)) : List (Pt2 α) := l.insertionSort lexLe

/-- Signed area cross product of the triangle `o a b`. -/
def cross2 (o a b : Pt2 α) : α :=
  (a.1 - o.1) * (b.2 - o.2) - (a.2 - o.2) * (b.1 - o.1)

/-- All points affinely degenerate (collinear): exactly the flat inputs on
which `scipy.spatial.ConvexHull` raises a `QhullError`
(src/process.py:327-329 routes those to the fallback). -/
def degenerateYZ (l : List (Pt2 α)) : Prop :=
  ∀ o ∈ l, ∀ a ∈ l, ∀ b ∈ l, cross2 o a b = 0

instance (l : List (Pt2 α)) : Decidable (degenerateYZ l) := by
  unfold degenerateYZ; exact inferInstance

/-- One step of the Andrew monotone-chain construction: pop stack entries
while the turn through the new point is not a strict left turn. -/
def chainPush (p : Pt2 α) : List (Pt2 α) → List (Pt2 α)
  | b :: a :: rest =>
      if cross2 a b p ≤ 0 then chainPush p (a :: rest) else p :: b :: a :: rest
  | l => p :: l

/-- One half (lower or upper) of the monotone-chain hull. -/
def halfHull (l : List (Pt2 α)) : List (Pt2 α) :=
  (l.foldl (fun st p => chainPush p st) []).reverse

/-- The 2-D convex hull boundary, as the cyclically ordered list of hull
vertices (Andrew's monotone chain).  This embeds the perimeter-relevant
behavior of `scipy.spatial.ConvexHull` on non-degenerate input: the same
vertex set in the same cyclic order, which is all
`calculate_circumference_at_max_z_range` consumes. -/
def convexHullPts (l : List (Pt2 α)) : List (Pt2 α) :=
  let s := lexSort l
  (halfHull s).dropLast ++ (halfHull s.reverse).dropLast

/-- Perimeter of a closed polygon: Euclidean distances between consecutive
vertices including the wrap-around edge (src/process.py:309-313). -/
noncomputable def perimeter (toR : α → ℝ) (l : List (Pt2 α)) : ℝ :=
  ((l.zip (l.rotate 1)).map (fun pq => dist2R toR pq.1 pq.2)).sum

/-- Embedding of `np.arctan2`. -/
noncomputable def arctan2 (y x : ℝ) : ℝ :=
  if 0 < x then Real.arctan (y / x)
  else if x < 0 then
    (if 0 ≤ y then Real.arctan (y / x) + Real.pi else Real.arctan (y / x) - Real.pi)
  else
    (if 0 < y then Real.pi / 2 else if y < 0 then -(Real.pi / 2) else 0)

/-- Mean of a list of reals (`np.mean`); `0` on the empty list. -/
noncomputable def meanR (l : List ℝ) : ℝ := l.sum / l.length

/-- First index of the maximal value among `ds` restricted to `idxs`
(`np.argmax` keeps the first maximum). -/
noncomputable def pickMaxIdx (ds : List ℝ) (idxs : List ℕ) : ℕ :=
  idxs.foldl (fun best j => if ds.getD best 0 < ds.getD j 0 then j else best)
    (idxs.headD 0)

/-- Embedding of `calculate_simple_circumference` (src/process.py:331-379),
the sector-based fallback used when the convex-hull computation fails:
bin points into 20 angular sectors around the centroid, take the farthest
point of each nonempty sector, and sum consecutive distances cyclically. -/
noncomputable def calculate_simple_circumference (toR : α → ℝ)
    (yz : List (Pt2 α)) : ℝ :=
  let yzR : List (ℝ × ℝ) := yz.map (fun p => (toR p.1, toR p.2))
  let cy := meanR (yzR.map (·.1))
  let cz := meanR (yzR.map (·.2))
  let angles := yzR.map (fun p => arctan2 (p.2 - cz) (p.1 - cy))
  let dists := yzR.map (fun p => Real.sqrt ((p.1 - cy) ^ 2 + (p.2 - cz) ^ 2))
  let sectorPts := (List.range 20).filterMap (fun i =>
    let lo := -Real.pi + Real.pi * (2 * i) / 20
    let hi := -Real.pi + Real.pi * (2 * (i + 1)) / 20
    let idxs := (List.range yzR.length).filter
      (fun j => decide (lo ≤ angles.getD j 0 ∧ angles.getD j 0 < hi))
    if idxs.isEmpty then none
    else some (yzR.getD (pickMaxIdx dists idxs) (0, 0)))
  if sectorPts.length < 3 then 0
  else ((sectorPts.zip (sectorPts.rotate 1)).map
    (fun pq => Real.sqrt ((pq.2.1 - pq.1.1) ^ 2 + (pq.2.2 - pq.1.2) ^ 2))).sum

/-- Embedding of `calculate_circumference_at_max_z_range`
(src/process.py:248-329): scan the 50 x-slices for the maximal z-spread;
return 0 when no slice updates the scan (`best_x_pos is None`); re-extract a
1.5x-widened window, return 0 when it holds fewer than 3 points; project to
(y, z); on degenerate (collinear) input `ConvexHull` raises and the fallback
runs, otherwise the convex-hull perimeter is returned. -/
noncomputable def calculate_circumference_at_max_z_range (toR : α → ℝ)
    (pts : List (Pt α)) : ℝ :=
  match (bestSlice pts).1 with
  | none => 0
  | some bx =>
    let w := windowPts pts bx
    if w.length < 3 then 0
    else
      let yz := yzProj w
      if degenerateYZ yz then calculate_simple_circumference toR yz
      else perimeter toR (convexHullPts (lexSort yz))

/-- Python exceptions that the pipeline stages of src/process.py can raise
and `process_ply_file` catches: `plyfile` parse errors, `KeyError` on a
missing element/property, numpy's empty-reduction `ValueError` (min/max of a
zero-size array), and sklearn's `ValueError` when `PCA(n_components=3)` is
fit on fewer than 3 samples. -/
inductive PyExc
  | parseError
  | keyError (field : String)
  | emptyReduce
  | pcaFitError
deriving DecidableEq

/-- Embedding of `calculate_foot_dimensions` (src/process.py:221-246):
on an empty cloud `points[:, 0].min()` raises numpy's empty-reduction
error; otherwise foot_length = |x_max - x_min|, foot_width = |z_max - z_min|
and the circumference of the widest cross-section. -/
noncomputable def calculate_foot_dimensions (toR : α → ℝ) (pts : List (Pt α)) :
    Except PyExc (α × α × ℝ) :=
  if pts = [] then .error .emptyReduce
  else
    .ok (|xMaxP pts - xMinP pts|, |zMaxP pts - zMinP pts|,
      calculate_circumference_at_max_z_range toR pts)

/-- The z-spread of slice `i`, with 0 for an empty slice (an empty slice can
never win the scan, so this encoding is faithful). -/
def sliceSpreadAt (pts : List (Pt α)) (i : ℕ) : α :=
  if sliceAt pts i = [] then 0 else zSpread (sliceAt pts i)

/-- Modelled from the spec (section 4.6, step 2): the maximal z-spread over
the 50 equal-width slices. -/
def specMaxSpread (pts : List (Pt α)) : α :=
  (List.range 50).foldl (fun m i => max m (sliceSpreadAt pts i)) 0

/-- Modelled from the spec (section 4.6, step 2): the first slice index
attaining the maximal z-spread ("the slice of maximal spread"). -/
def specBestIdx (pts : List (Pt α)) : ℕ :=
  ((List.range 50).find? (fun i =>
    decide (sliceSpreadAt pts i = specMaxSpread pts))).getD 0

/-- Modelled from the spec (section 4.6, steps 1-6): the circumference
algorithm as the specification words it — slice, select the slice of maximal
spread, re-extract a 1.5x-widened window around its midpoint, project onto
(y, z), return 0 below 3 points, else the convex-hull perimeter with the
wrap-around edge. -/
noncomputable def spec_circumference (toR : α → ℝ) (pts : List (Pt α)) : ℝ :=
  let bx := binMid pts (specBestIdx pts)
  let w := windowPts pts bx
  if w.length < 3 then 0
  else perimeter toR (convexHullPts (yzProj w))

/-- Squared Euclidean distance of two 3-D points. -/
def sqDist3 (p q : Pt α) : α :=
  (q.1 - p.1) ^ 2 + (q.2.1 - p.2.1) ^ 2 + (q.2.2 - p.2.2) ^ 2

/-- Modelled from the spec: the neighbor-selection step of the
statistical-distance filter (section 4.5(a)); Open3D's
`remove_statistical_outlier` internals are not part of this repository.
For a point of the cloud, the squared distances to its 30 nearest other
points (one copy of the point itself excluded), in ascending order. -/
def kNearestSq (pts : List (Pt α)) (p : Pt α) : List α :=
  (((pts.erase p).map (sqDist3 p)).insertionSort (· ≤ ·)).take 30

/-- Modelled from the spec: the mean distance from `p` to its 30 nearest
neighbors (section 4.5(a)); square roots are taken in the reals through the
coordinate cast `toR`. -/
noncomputable def meanKDist (toR : α → ℝ) (pts : List (Pt α)) (p : Pt α) : ℝ :=
  let ds := kNearestSq pts p
  (ds.map (fun d => Real.sqrt (toR d))).sum / ds.length

/-- Modelled from the spec: the global mean of the per-point mean neighbor
distances (section 4.5(a)). -/
noncomputable def statMean (toR : α → ℝ) (pts : List (Pt α)) : ℝ :=
  meanR (pts.map (meanKDist toR pts))

/-- Modelled from the spec: the global (population) standard deviation of
the per-point mean neighbor distances (section 4.5(a)). -/
noncomputable def statStd (toR : α → ℝ) (pts : List (Pt α)) : ℝ :=
  Real.sqrt (meanR (pts.map (fun p => (meanKDist toR pts p - statMean toR pts) ^ 2)))

/-- Modelled from the spec: a point survives the statistical-distance filter
when its mean neighbor distance does not exceed
`global_mean + 0.5 * global_std` (section 4.5(a), ratio fixed at 0.5 by
src/process.py:190). -/
def statKeep (toR : α → ℝ) (pts : List (Pt α)) (p : Pt α) : Prop :=
  meanKDist toR pts p ≤ statMean toR pts + (1 / 2) * statStd toR pts

open scoped Classical in
/-- Modelled from the spec: the statistical-distance filter, first stage of
`remove_noise` (src/process.py:201-206, parameters k = 30, ratio = 0.5). -/
noncomputable def statFilter (toR : α → ℝ) (pts : List (Pt α)) : List (Pt α) :=
  pts.filter (fun p => decide (statKeep toR pts p))

/-- Modelled from the spec: the radius-support filter, second stage of
`remove_noise` (src/process.py:211-216): keep a point exactly when at least
10 other points lie within distance 0.02 of it (squared-distance
comparison, which is equivalent). -/
def radiusFilter (pts : List (Pt α)) : List (Pt α) :=
  pts.filter (fun p =>
    decide (10 ≤ ((pts.erase p).filter
      (fun q => decide (sqDist3 p q ≤ (1 / 50) ^ 2))).length))

/-- Embedding of `PointCloudProcessor.remove_noise` (src/process.py:190-219):
the statistical filter followed by the radius filter, each consuming the
previous stage's output.  The two Open3D filters are modelled from the spec
(section 4.5). -/
noncomputable def remove_noise (toR : α → ℝ) (pts : List (Pt α)) : List (Pt α) :=
  radiusFilter (statFilter toR pts)

end Geometry

/-- The coordinate cast used to instantiate the geometry at exact rational
clouds. -/
def qr : ℚ → ℝ := fun q => (q : ℝ)

/-- Pointwise cast of a rational point to a real point, applied where the
pipeline's arithmetic leaves the rationals (rotation by a real angle). -/
def castPt (p : Pt ℚ) : Pt ℝ := ((p.1 : ℝ), (p.2.1 : ℝ), (p.2.2 : ℝ))

/-- Embedding of `align_to_principal_component` (src/process.py:124-188),
restricted to the position array.  The first principal component produced by
sklearn's PCA is the oracle argument `pc`.  The component is projected onto
the XZ plane; if the projected norm exceeds 1e-6 the cloud is rotated about
the Y axis by `arccos(clip(dot(projected, x_axis), -1, 1))`, negated when
the Y component of `cross(projected, x_axis)` is negative; otherwise the
rotation is skipped. -/
noncomputable def align_to_principal_component (pc : Pt ℝ) (pts : List (Pt ℝ)) :
    List (Pt ℝ) :=
  let proj : Pt ℝ := (pc.1, 0, pc.2.2)
  let n := Real.sqrt (proj.1 ^ 2 + proj.2.1 ^ 2 + proj.2.2 ^ 2)
  if 1 / 1000000 < n then
    let u : Pt ℝ := (proj.1 / n, proj.2.1 / n, proj.2.2 / n)
    let cosAngle := min (max (u.1 * 1 + u.2.1 * 0 + u.2.2 * 0) (-1)) 1
    let angle := Real.arccos cosAngle
    let crossY := u.2.2 * 1 - u.1 * 0
    let θ := if crossY < 0 then -angle else angle
    pts.map (fun p =>
      (p.1 * Real.cos θ + p.2.2 * Real.sin θ, p.2.1,
       -(p.1 * Real.sin θ) + p.2.2 * Real.cos θ))
  else pts

/-- Rotation of a 3-D point about the vertical (Y) axis by angle `θ`: the
standard rotation matrix `R_y(θ)` applied to the point, exactly what
`points @ rotation_matrix.T` computes in src/process.py:166-173. -/
noncomputable def rotAboutVert (θ : ℝ) (p : Pt ℝ) : Pt ℝ :=
  (p.1 * Real.cos θ + p.2.2 * Real.sin θ, p.2.1,
   -(p.1 * Real.sin θ) + p.2.2 * Real.cos θ)

/-- Modelled from the spec (section 4.4): the signed rotation angle,
`arccos(clamp(dot(projected, reference), -1, 1))` with the sign flipped
according to the sign of the vertical component of the cross product of the
projected vector and the reference axis `[1, 0, 0]`. -/
noncomputable def specAlignAngle (pc : Pt ℝ) : ℝ :=
  let proj : Pt ℝ := (pc.1, 0, pc.2.2)
  let n := Real.sqrt (proj.1 ^ 2 + proj.2.1 ^ 2 + proj.2.2 ^ 2)
  let d := min (max (proj.1 / n) (-1)) 1
  let a := Real.arccos d
  if proj.2.2 / n < 0 then -a else a

/-- A parsed vertex element: an association list from property names to
their columns.  The `plyfile` parser guarantees all columns of one element
have equal length; well-formedness is imposed where a theorem needs it. -/
abbrev VertexElt := List (String × List ℚ)

/-- A parse attempt of an input file: `none` for an unparsable file,
otherwise the association list of elements. -/
abbrev PlyInput := Option (List (String × VertexElt))

/-- All channel values of a color matrix flattened, as `colors.min()` and
`colors.max()` reduce over in src/process.py:66. -/
def channelVals (cs : List (Pt ℚ)) : List ℚ :=
  cs.flatMap (fun c => [c.1, c.2.1, c.2.2])

/-- Embedding of the color normalization of `load_ply_file`
(src/process.py:64-67): when any channel value falls outside [0, 1], all
three channels are rescaled linearly by the single minimum and maximum
taken over all three channels combined. -/
def normalizeColors (cs : List (Pt ℚ)) : List (Pt ℚ) :=
  if 1 < listMax (channelVals cs) ∨ listMin (channelVals cs) < 0 then
    let m := listMin (channelVals cs)
    let M := listMax (channelVals cs)
    cs.map (fun c =>
      ((c.1 - m) / (M - m), (c.2.1 - m) / (M - m), (c.2.2 - m) / (M - m)))
  else cs

/-- Modelled from the spec (section 4.1 color derivation): if any of the
three channel values fall outside [0, 1], compute one shared minimum and
maximum across all three channels combined and linearly rescale all three
with that single pair; otherwise store the values unchanged. -/
def specNormalizeColors (cs : List (Pt ℚ)) : List (Pt ℚ) :=
  if ∃ v ∈ channelVals cs, v < 0 ∨ 1 < v then
    cs.map (fun c =>
      ((c.1 - listMin (channelVals cs)) / (listMax (channelVals cs) - listMin (channelVals cs)),
       (c.2.1 - listMin (channelVals cs)) / (listMax (channelVals cs) - listMin (channelVals cs)),
       (c.2.2 - listMin (channelVals cs)) / (listMax (channelVals cs) - listMin (channelVals cs))))
  else cs

/-- Embedding of `load_ply_file` (src/process.py:19-75).  Outcomes mirror
the Python control flow: exceptions propagate (`.error`), a zero-point cloud
returns `False` (`.ok none`), success populates the processor's cloud
(`.ok (some cloud)`).  Parse failure, a missing `vertex` element, and a
missing accessed property raise; when all color-source channels are present
on a zero-row element, the range print (src/process.py:62) reduces over an
empty array and raises. -/
def load_ply_file (input : PlyInput) : Except PyExc (Option (Cloud ℚ)) :=
  match input with
  | none => .error .parseError
  | some elts =>
    match elts.lookup "vertex" with
    | none => .error (.keyError "vertex")
    | some v =>
      match v.lookup "x" with
      | none => .error (.keyError "x")
      | some xs =>
      match v.lookup "y" with
      | none => .error (.keyError "y")
      | some ys =>
      match v.lookup "z" with
      | none => .error (.keyError "z")
      | some zs =>
        let points := xs.zip (ys.zip zs)
        let normalsE : Except PyExc (Option (List (Pt ℚ))) :=
          match v.lookup "nx" with
          | none => .ok none
          | some nxs =>
            match v.lookup "ny" with
            | none => .error (.keyError "ny")
            | some nys =>
            match v.lookup "nz" with
            | none => .error (.keyError "nz")
            | some nzs => .ok (some (nxs.zip (nys.zip nzs)))
        match normalsE with
        | .error e => .error e
        | .ok normals =>
          let colorsE : Except PyExc (Option (List (Pt ℚ))) :=
            match v.lookup "f_dc_0", v.lookup "f_dc_1", v.lookup "f_dc_2" with
            | some rs, some gs, some bs =>
              let raw := rs.zip (gs.zip bs)
              if raw = [] then .error .emptyReduce
              else .ok (some (normalizeColors raw))
            | _, _, _ => .ok none
          match colorsE with
          | .error e => .error e
          | .ok colors =>
            if points.length = 0 then .ok none
            else .ok (some ⟨points, normals, colors⟩)

/-- The vertex element of a parsed input, when present. -/
def vertexElt (i : PlyInput) : Option VertexElt :=
  i.bind (fun elts => elts.lookup "vertex")

/-- The row count of the vertex element: the length of its first property
column (the element count recorded by the parser). -/
def vertexRowCount (i : PlyInput) : ℕ :=
  match vertexElt i with
  | none => 0
  | some [] => 0
  | some ((_, col) :: _) => col.length

/-- The vertex element has a property of the given name. -/
def hasProp (i : PlyInput) (nm : String) : Prop :=
  ((vertexElt i).bind (fun v => v.lookup nm)).isSome = true

instance (i : PlyInput) (nm : String) : Decidable (hasProp i nm) := by
  unfold hasProp; exact inferInstance

/-- All property columns of every element have equal length — the invariant
the `plyfile` parser guarantees for parsed files. -/
def UniformInput : PlyInput → Prop
  | none => True
  | some elts => ∀ e ∈ elts, ∀ p ∈ e.2, ∀ q ∈ e.2, p.2.length = q.2.length

instance : (i : PlyInput) → Decidable (UniformInput i)
  | none => isTrue trivial
  | some elts => by unfold UniformInput; exact inferInstance

/-- The failure labels of the `process_ply_file` result dictionaries
(src/process.py:436-444, 498-506, 508-517): the load-returned-False
message, the save-failure message, and the catch-all wrapper around a
raised exception. -/
inductive ProcErr
  | loadFailed
  | saveFailed
  | exceptionRaised (e : PyExc)
deriving DecidableEq

/-- The stages of the pipeline (spec section 2). -/
inductive Stage
  | loader
  | axisCorrector
  | planeRemover
  | alignment
  | denoiser
  | dimensionCalculator
  | writer
deriving DecidableEq

/-- The stage whose code raises each modelled exception in src/process.py. -/
def PyExc.raisedBy : PyExc → Stage
  | .parseError => .loader
  | .keyError _ => .loader
  | .emptyReduce => .dimensionCalculator
  | .pcaFitError => .alignment

/-- The result dictionary of `process_ply_file` (src/process.py:420-517):
`success`, an error label when failed, the three measurements (absent =
`None`), the output file path (absent = `None`), and `point_count`. -/
structure ProcessResult where
  success : Bool
  error : Option ProcErr := none
  foot_length : Option ℝ := none
  foot_width : Option ℝ := none
  circumference : Option ℝ := none
  output_file : Option String := none
  point_count : ℕ := 0

/-- Embedding of `process_ply_file` (src/process.py:410-517).  Oracles:
`inliers` for the RANSAC plane, `pc` for the PCA first component, `saveOk`
for the outcome of `o3d.io.write_point_cloud`.  Control flow mirrors the
source: load failure by `False` yields the load-failed dictionary; any
raised exception yields the catch-all dictionary with no measurements;
after a successful measurement, a failed save still returns the computed
measurements with `output_file = None`. -/
noncomputable def process_ply_file (input : PlyInput) (inliers : List ℕ)
    (pc : Pt ℝ) (saveOk : Bool) (outPath : String) : ProcessResult :=
  match load_ply_file input with
  | .error e => { success := false, error := some (.exceptionRaised e) }
  | .ok none => { success := false, error := some .loadFailed }
  | .ok (some cl) =>
    let c2 := flip_y_axis cl
    let c3 := remove_planes inliers c2
    let ptsR := c3.points.map castPt
    if ptsR.length < 3 then
      { success := false, error := some (.exceptionRaised .pcaFitError) }
    else
      let p4 := align_to_principal_component pc ptsR
      let p5 := remove_noise id p4
      match calculate_foot_dimensions id p5 with
      | .error e => { success := false, error := some (.exceptionRaised e) }
      | .ok (l, w, c) =>
        if saveOk then
          { success := true, foot_length := some l, foot_width := some w,
            circumference := some c, output_file := some outPath,
            point_count := p5.length }
        else
          { success := false, error := some .saveFailed, foot_length := some l,
            foot_width := some w, circumference := some c, output_file := none,
            point_count := p5.length }

/-- The 8 corners of an axis-aligned box with origin corner
`(x0, y0, z0)`, length `L` along x, height `H` along y and width `W`
along z. -/
def boxCorners (x0 y0 z0 L W H : ℚ) : List (Pt ℚ) :=
  [(x0, y0, z0), (x0 + L, y0, z0), (x0, y0 + H, z0), (x0, y0, z0 + W),
   (x0 + L, y0 + H, z0), (x0 + L, y0, z0 + W), (x0, y0 + H, z0 + W),
   (x0 + L, y0 + H, z0 + W)]

/-- Example cloud used to settle the denoiser idempotence claim: ten
coincident core points at the origin, one point at x = 0.01 (inside the
0.02 support radius of the core) and one far point at x = 1. -/
noncomputable def noiseCloud : List (Pt ℝ) :=
  List.replicate 10 (0, 0, 0) ++ [(1 / 100, 0, 0), (1, 0, 0)]

/-- The denoiser's first-pass output on `noiseCloud`: only the far point
removed. -/
noncomputable def noiseCloudMid : List (Pt ℝ) :=
  List.replicate 10 (0, 0, 0) ++ [(1 / 100, 0, 0)]

/-!  Theorems. -/

section MinMaxLemmas

variable {α : Type} [LinearOrderedField α]

lemma foldl_min_le_init (r : List α) (a : α) : r.foldl min a ≤ a := by
  induction r generalizing a with
  | nil => exact le_refl a
  | cons b r ih => exact le_trans (ih (min a b)) (min_le_left a b)

lemma foldl_min_le_mem {r : List α} {b : α} (hb : b ∈ r) (a : α) :
    r.foldl min a ≤ b := by
  induction r generalizing a with
  | nil => cases hb
  | cons c r ih =>
    rcases List.mem_cons.mp hb with h | h
    · subst h
      exact le_trans (foldl_min_le_init r (min a b)) (min_le_right a b)
    · exact ih h (min a c)

lemma init_le_foldl_max (r : List α) (a : α) : a ≤ r.foldl max a := by
  induction r generalizing a with
  | nil => exact le_refl a
  | cons b r ih => exact le_trans (le_max_left a b) (ih (max a b))

lemma mem_le_foldl_max {r : List α} {b : α} (hb : b ∈ r) (a : α) :
    b ≤ r.foldl max a := by
  induction r generalizing a with
  | nil => cases hb
  | cons c r ih =>
    rcases List.mem_cons.mp hb with h | h
    · subst h
      exact le_trans (le_max_right a b) (init_le_foldl_max r (max a b))
    · exact ih h (max a c)

lemma le_foldl_min_of_forall {r : List α} {c : α} (h : ∀ x ∈ r, c ≤ x)
    {a : α} (ha : c ≤ a) : c ≤ r.foldl min a := by
  induction r generalizing a with
  | nil => exact ha
  | cons b r ih =>
    exact ih (fun x hx => h x (List.mem_cons_of_mem b hx))
      (le_min ha (h b (List.mem_cons_self b r)))

lemma foldl_max_le_of_forall {r : List α} {c : α} (h : ∀ x ∈ r, x ≤ c)
    {a : α} (ha : a ≤ c) : r.foldl max a ≤ c := by
  induction r generalizing a with
  | nil => exact ha
  | cons b r ih =>
    exact ih (fun x hx => h x (List.mem_cons_of_mem b hx))
      (max_le ha (h b (List.mem_cons_self b r)))

lemma listMin_le_of_mem {l : List α} {b : α} (hb : b ∈ l) : listMin l ≤ b := by
  cases l with
  | nil => cases hb
  | cons a r =>
    rcases List.mem_cons.mp hb with h | h
    · subst h; exact foldl_min_le_init r b
    · exact foldl_min_le_mem h a

lemma le_listMax_of_mem {l : List α} {b : α} (hb : b ∈ l) : b ≤ listMax l := by
  cases l with
  | nil => cases hb
  | cons a r =>
    rcases List.mem_cons.mp hb with h | h
    · subst h; exact init_le_foldl_max r b
    · exact mem_le_foldl_max h a

lemma le_listMin_of_forall {l : List α} {c : α} (hne : l ≠ [])
    (h : ∀ x ∈ l, c ≤ x) : c ≤ listMin l := by
  cases l with
  | nil => exact absurd rfl hne
  | cons a r =>
    exact le_foldl_min_of_forall (fun x hx => h x (List.mem_cons_of_mem a hx))
      (h a (List.mem_cons_self a r))

lemma listMax_le_of_forall {l : List α} {c : α} (hne : l ≠ [])
    (h : ∀ x ∈ l, x ≤ c) : listMax l ≤ c := by
  cases l with
  | nil => exact absurd rfl hne
  | cons a r =>
    exact foldl_max_le_of_forall (fun x hx => h x (List.mem_cons_of_mem a hx))
      (h a (List.mem_cons_self a r))

lemma foldl_max_mem (r : List α) (a : α) : r.foldl max a ∈ a :: r := by
  induction r generalizing a with
  | nil => exact List.mem_cons_self a []
  | cons b r ih =>
    rw [List.foldl_cons]
    rcases List.mem_cons.mp (ih (max a b)) with h | h
    · rw [h]
      rcases max_choice a b with hc | hc <;> simp [hc]
    · simp [h]

lemma foldl_min_mem (r : List α) (a : α) : r.foldl min a ∈ a :: r := by
  induction r generalizing a with
  | nil => exact List.mem_cons_self a []
  | cons b r ih =>
    rw [List.foldl_cons]
    rcases List.mem_cons.mp (ih (min a b)) with h | h
    · rw [h]
      rcases min_choice a b with hc | hc <;> simp [hc]
    · simp [h]

lemma listMax_mem {l : List α} (h : l ≠ []) : listMax l ∈ l := by
  cases l with
  | nil => exact absurd rfl h
  | cons a r => exact foldl_max_mem r a

lemma listMin_mem {l : List α} (h : l ≠ []) : listMin l ∈ l := by
  cases l with
  | nil => exact absurd rfl h
  | cons a r => exact foldl_min_mem r a

lemma listMin_le_listMax {l : List α} (h : l ≠ []) : listMin l ≤ listMax l := by
  cases l with
  | nil => exact absurd rfl h
  | cons a r =>
    exact le_trans (listMin_le_of_mem (List.mem_cons_self a r))
      (le_listMax_of_mem (List.mem_cons_self a r))

lemma listMin_const {l : List α} {c : α} (hne : l ≠ [])
    (h : ∀ x ∈ l, x = c) : listMin l = c := by
  rcases List.exists_mem_of_ne_nil l hne with ⟨a, ha⟩
  exact le_antisymm (h a ha ▸ listMin_le_of_mem ha)
    (le_listMin_of_forall hne (fun x hx => (h x hx).ge))

lemma listMax_const {l : List α} {c : α} (hne : l ≠ [])
    (h : ∀ x ∈ l, x = c) : listMax l = c := by
  rcases List.exists_mem_of_ne_nil l hne with ⟨a, ha⟩
  exact le_antisymm (listMax_le_of_forall hne (fun x hx => (h x hx).le))
    (h a ha ▸ le_listMax_of_mem ha)

end MinMaxLemmas

lemma keepComplement_length_congr {β γ : Type} (idxs : List ℕ)
    {l₁ : List β} {l₂ : List γ} (h : l₁.length = l₂.length) :
    (keepComplement idxs l₁).length = (keepComplement idxs l₂).length := by
  unfold keepComplement
  rw [List.length_map, List.length_map]
  have main : ∀ (n : ℕ) (a : List β) (b : List γ), a.length = b.length →
      ((a.enumFrom n).filter (fun ip => !(decide (ip.1 ∈ idxs)))).length =
      ((b.enumFrom n).filter (fun ip => !(decide (ip.1 ∈ idxs)))).length := by
    intro n a
    induction a generalizing n with
    | nil =>
      intro b hb
      cases b with
      | nil => rfl
      | cons x xs => simp at hb
    | cons x xs ih =>
      intro b hb
      cases b with
      | nil => simp at hb
      | cons y ys =>
        simp only [List.length_cons, Nat.succ.injEq] at hb
        simp only [List.enumFrom, List.filter_cons]
        by_cases hn : n ∈ idxs <;>
          simp [hn, ih (n + 1) ys hb]
  have := main 0 l₁ l₂ h
  simpa [List.enum] using this

/-- C10: `flip_y_axis` negates exactly the y coordinate of every point and
changes nothing else — x and z coordinates (captured by the pointwise map
equation), point count, normals and colors are unchanged — and applying it
twice restores the original cloud. -/
theorem C10_flip_y_axis (c : Cloud ℚ) :
    (flip_y_axis c).points = c.points.map (fun p => (p.1, -p.2.1, p.2.2)) ∧
    (flip_y_axis c).points.length = c.points.length ∧
    (flip_y_axis c).normals = c.normals ∧
    (flip_y_axis c).colors = c.colors ∧
    flip_y_axis (flip_y_axis c) = c := by
  refine ⟨rfl, by simp [flip_y_axis], rfl, rfl, ?_⟩
  cases c with
  | mk pts ns cs =>
    simp [flip_y_axis, List.map_map, Function.comp_def]

/-- C3: `remove_planes` leaves the cloud completely unchanged when it has
fewer than 100 points or the winning hypothesis has fewer than 50 inliers;
otherwise it keeps exactly the complement of the inlier indices in the
position array and in any attached normal/color array, preserving the
same-length invariant across all attribute arrays. -/
theorem C3_remove_planes_policy (inliers : List ℕ) (c : Cloud ℚ) :
    (c.points.length < 100 → remove_planes inliers c = c) ∧
    (100 ≤ c.points.length → inliers.length < 50 → remove_planes inliers c = c) ∧
    (100 ≤ c.points.length → 50 ≤ inliers.length →
      (remove_planes inliers c).points = keepComplement inliers c.points ∧
      (remove_planes inliers c).normals = c.normals.map (keepComplement inliers) ∧
      (remove_planes inliers c).colors = c.colors.map (keepComplement inliers) ∧
      (WellFormed c → WellFormed (remove_planes inliers c))) := by
  refine ⟨fun h => by simp [remove_planes, h], fun h1 h2 => ?_, fun h1 h2 => ?_⟩
  · have h1' : ¬ c.points.length < 100 := Nat.not_lt.mpr h1
    simp [remove_planes, h1', h2]
  · have h1' : ¬ c.points.length < 100 := Nat.not_lt.mpr h1
    have h2' : ¬ inliers.length < 50 := Nat.not_lt.mpr h2
    refine ⟨by simp [remove_planes, h1', h2'], by simp [remove_planes, h1', h2'],
      by simp [remove_planes, h1', h2'], fun hwf => ?_⟩
    constructor
    · intro ns hns
      simp only [remove_planes, h1', h2', if_false] at hns ⊢
      rcases Option.map_eq_some'.mp hns with ⟨ns₀, hns₀, hkeep⟩
      rw [← hkeep]
      exact keepComplement_length_congr inliers (hwf.1 ns₀ hns₀)
    · intro cs hcs
      simp only [remove_planes, h1', h2', if_false] at hcs ⊢
      rcases Option.map_eq_some'.mp hcs with ⟨cs₀, hcs₀, hkeep⟩
      rw [← hkeep]
      exact keepComplement_length_congr inliers (hwf.2 cs₀ hcs₀)

section ScanLemmas

variable {α β : Type} [LinearOrderedField α]

lemma runMax_eq_foldl_max (f : ℕ → α) (m : α) (idxs : List ℕ) :
    runMax f m idxs = (idxs.map f).foldl max m := by
  rw [runMax, List.foldl_map]

lemma le_runMax_init (f : ℕ → α) (m : α) (idxs : List ℕ) :
    m ≤ runMax f m idxs := by
  rw [runMax_eq_foldl_max]; exact init_le_foldl_max _ m

lemma le_runMax_of_mem (f : ℕ → α) (m : α) {idxs : List ℕ} {i : ℕ}
    (hi : i ∈ idxs) : f i ≤ runMax f m idxs := by
  rw [runMax_eq_foldl_max]
  exact mem_le_foldl_max (List.mem_map_of_mem f hi) m

lemma runMax_fix (f : ℕ → α) {m : α} {idxs : List ℕ}
    (h : ∀ i ∈ idxs, f i ≤ m) : runMax f m idxs = m := by
  induction idxs with
  | nil => rfl
  | cons i idxs ih =>
    rw [runMax, List.foldl_cons, max_eq_left (h i (List.mem_cons_self i idxs))]
    exact ih (fun j hj => h j (List.mem_cons_of_mem i hj))

lemma runMax_cons (f : ℕ → α) (m : α) (i : ℕ) (idxs : List ℕ) :
    runMax f m (i :: idxs) = runMax f (max m (f i)) idxs := rfl

lemma strictScan_fix (g : ℕ → β) (f : ℕ → α) {st : Option β × α}
    {idxs : List ℕ} (h : ∀ i ∈ idxs, f i ≤ st.2) :
    strictScan g f st idxs = st := by
  induction idxs with
  | nil => rfl
  | cons i idxs ih =>
    rw [strictScan, List.foldl_cons,
      if_neg (not_lt.mpr (h i (List.mem_cons_self i idxs)))]
    exact ih (fun j hj => h j (List.mem_cons_of_mem i hj))

/-- Characterization of the strict-improvement scan when some value beats
the initial bound: it returns the payload and value of the first index
attaining the running maximum. -/
lemma strictScan_char (g : ℕ → β) (f : ℕ → α) :
    ∀ (idxs : List ℕ) (st : Option β × α), (∃ i ∈ idxs, st.2 < f i) →
    ∃ j ∈ idxs, strictScan g f st idxs = (some (g j), f j) ∧
      idxs.find? (fun i => decide (f i = runMax f st.2 idxs)) = some j ∧
      f j = runMax f st.2 idxs := by
  intro idxs
  induction idxs with
  | nil => rintro st ⟨i, hi, -⟩; cases hi
  | cons i idxs ih =>
    intro st hex
    by_cases hlt : st.2 < f i
    · by_cases hex2 : ∃ k ∈ idxs, f i < f k
      · obtain ⟨j, hj, hfold, hfind, hfm⟩ := ih (some (g i), f i) hex2
        obtain ⟨k, hk, hfk⟩ := hex2
        have hm : runMax f st.2 (i :: idxs) = runMax f (f i) idxs := by
          rw [runMax_cons, max_eq_right hlt.le]
        have hne : ¬ f i = runMax f st.2 (i :: idxs) := by
          rw [hm]
          exact ne_of_lt (lt_of_lt_of_le hfk (le_runMax_of_mem f (f i) hk))
        refine ⟨j, List.mem_cons_of_mem i hj, ?_, ?_, ?_⟩
        · rw [strictScan, List.foldl_cons, if_pos hlt]; exact hfold
        · rw [List.find?_cons_of_neg _ (by simpa using hne), hm]; exact hfind
        · rw [hm]; exact hfm
      · push_neg at hex2
        have hm : runMax f st.2 (i :: idxs) = f i := by
          rw [runMax_cons, max_eq_right hlt.le]
          exact runMax_fix f hex2
        refine ⟨i, List.mem_cons_self i idxs, ?_, ?_, hm.symm⟩
        · rw [strictScan, List.foldl_cons, if_pos hlt]
          exact strictScan_fix g f hex2
        · exact List.find?_cons_of_pos _ (by simpa using hm.symm)
    · obtain ⟨k, hk, hfk⟩ := hex
      have hki : k ∈ idxs := by
        rcases List.mem_cons.mp hk with h | h
        · exact absurd (h ▸ hfk) hlt
        · exact h
      obtain ⟨j, hj, hfold, hfind, hfm⟩ := ih st ⟨k, hki, hfk⟩
      have hm : runMax f st.2 (i :: idxs) = runMax f st.2 idxs := by
        rw [runMax_cons, max_eq_left (not_lt.mp hlt)]
      have hne : ¬ f i = runMax f st.2 (i :: idxs) := by
        rw [hm]
        exact ne_of_lt (lt_of_le_of_lt (not_lt.mp hlt)
          (lt_of_lt_of_le hfk (le_runMax_of_mem f st.2 hki)))
      refine ⟨j, List.mem_cons_of_mem i hj, ?_, ?_, ?_⟩
      · rw [strictScan, List.foldl_cons, if_neg hlt]; exact hfold
      · rw [List.find?_cons_of_neg _ (by simpa using hne), hm]; exact hfind
      · rw [hm]; exact hfm

lemma zSpread_nonneg {l : List (Pt α)} (h : l ≠ []) : 0 ≤ zSpread l := by
  have : ptsZ l ≠ [] := by simpa [ptsZ] using h
  exact sub_nonneg.mpr (listMin_le_listMax this)

/-- The slice scan of the source is the abstract strict scan over the
per-slice spreads (an empty slice, encoded as spread 0, can never fire
because the state's bound stays nonnegative). -/
lemma bestSlice_eq_strictScan (pts : List (Pt α)) :
    bestSlice pts =
      strictScan (binMid pts) (sliceSpreadAt pts) (none, 0) (List.range 50) := by
  have main : ∀ (idxs : List ℕ) (st : Option α × α), 0 ≤ st.2 →
      idxs.foldl
        (fun st i =>
          if sliceAt pts i ≠ [] ∧ st.2 < zSpread (sliceAt pts i) then
            (some (binMid pts i), zSpread (sliceAt pts i))
          else st) st =
      strictScan (binMid pts) (sliceSpreadAt pts) st idxs := by
    intro idxs
    induction idxs with
    | nil => intro st _; rfl
    | cons i idxs ih =>
      intro st hst
      rw [List.foldl_cons, strictScan, List.foldl_cons, ← strictScan]
      by_cases hne : sliceAt pts i = []
      · have hf : sliceSpreadAt pts i = 0 := by simp [sliceSpreadAt, hne]
        rw [if_neg (by simp [hne]), hf, if_neg (not_lt.mpr hst)]
        exact ih st hst
      · have hf : sliceSpreadAt pts i = zSpread (sliceAt pts i) := by
          simp [sliceSpreadAt, hne]
        by_cases hlt : st.2 < zSpread (sliceAt pts i)
        · rw [if_pos ⟨hne, hlt⟩, hf, if_pos (hf ▸ hlt)]
          exact ih _ (by simpa using zSpread_nonneg hne)
        · rw [if_neg (by tauto), hf, if_neg (hf ▸ hlt)]
          exact ih st hst
  exact main (List.range 50) (none, 0) le_rfl

lemma specMaxSpread_eq_runMax (pts : List (Pt α)) :
    specMaxSpread pts = runMax (sliceSpreadAt pts) 0 (List.range 50) := rfl

/-- When some slice has strictly positive spread, the source's scan selects
the midpoint of the first slice attaining the maximal spread — the slice
the specification's argmax describes. -/
lemma bestSlice_of_pos_spread (pts : List (Pt α))
    (h : 0 < specMaxSpread pts) :
    (bestSlice pts).1 = some (binMid pts (specBestIdx pts)) := by
  have hex : ∃ i ∈ List.range 50, (0 : α) < sliceSpreadAt pts i := by
    by_contra hc
    push_neg at hc
    have : specMaxSpread pts = 0 := by
      rw [specMaxSpread_eq_runMax]
      exact runMax_fix _ hc
    rw [this] at h
    exact lt_irrefl 0 h
  obtain ⟨j, hj, hfold, hfind, hfm⟩ :=
    strictScan_char (binMid pts) (sliceSpreadAt pts) (List.range 50)
      ((none : Option α), (0 : α)) hex
  rw [bestSlice_eq_strictScan, hfold]
  have : specBestIdx pts = j := by
    rw [specBestIdx]
    have : ((List.range 50).find? (fun i =>
        decide (sliceSpreadAt pts i = specMaxSpread pts))) = some j := by
      rw [specMaxSpread_eq_runMax]
      exact hfind
    rw [this, Option.getD_some]
  rw [this]

end ScanLemmas

section ConstLemmas

variable {α : Type} [LinearOrderedField α]

lemma zSpread_of_const_z {l : List (Pt α)} {c : α} (hne : l ≠ [])
    (h : ∀ p ∈ l, p.2.2 = c) : zSpread l = 0 := by
  have hmap : ∀ v ∈ ptsZ l, v = c := by
    intro v hv
    rcases List.mem_map.mp hv with ⟨p, hp, hpv⟩
    exact hpv ▸ h p hp
  have hne' : ptsZ l ≠ [] := by simpa [ptsZ] using hne
  rw [zSpread, zMaxP, zMinP, listMax_const hne' hmap, listMin_const hne' hmap,
    sub_self]

lemma bestSlice_of_const_z (pts : List (Pt α)) (c : α)
    (h : ∀ p ∈ pts, p.2.2 = c) : bestSlice pts = (none, 0) := by
  rw [bestSlice_eq_strictScan]
  apply strictScan_fix
  intro i _
  rw [sliceSpreadAt]
  by_cases hne : sliceAt pts i = []
  · simp [hne]
  · rw [if_neg hne,
      zSpread_of_const_z hne (fun p hp => h p (List.mem_of_mem_filter hp))]

lemma circ_zero_of_const_z (toR : α → ℝ) (pts : List (Pt α)) (c : α)
    (h : ∀ p ∈ pts, p.2.2 = c) :
    calculate_circumference_at_max_z_range toR pts = 0 := by
  unfold calculate_circumference_at_max_z_range
  rw [bestSlice_of_const_z pts c h]

lemma xMinP_const {pts : List (Pt α)} {c : α} (hne : pts ≠ [])
    (h : ∀ p ∈ pts, p.1 = c) : xMinP pts = c := by
  apply listMin_const (by simpa [ptsX] using hne)
  intro v hv
  rcases List.mem_map.mp hv with ⟨p, hp, hpv⟩
  exact hpv ▸ h p hp

lemma xMaxP_const {pts : List (Pt α)} {c : α} (hne : pts ≠ [])
    (h : ∀ p ∈ pts, p.1 = c) : xMaxP pts = c := by
  apply listMax_const (by simpa [ptsX] using hne)
  intro v hv
  rcases List.mem_map.mp hv with ⟨p, hp, hpv⟩
  exact hpv ▸ h p hp

lemma binEdge_const {pts : List (Pt α)} {c : α} (hne : pts ≠ [])
    (h : ∀ p ∈ pts, p.1 = c) (i : ℕ) : binEdge pts i = c := by
  rw [binEdge, xMinP_const hne h, xMaxP_const hne h]; ring

lemma binMid_const {pts : List (Pt α)} {c : α} (hne : pts ≠ [])
    (h : ∀ p ∈ pts, p.1 = c) (i : ℕ) : binMid pts i = c := by
  rw [binMid, binEdge_const hne h, binEdge_const hne h]; ring

lemma sliceAt_const {pts : List (Pt α)} {c : α} (hne : pts ≠ [])
    (h : ∀ p ∈ pts, p.1 = c) (i : ℕ) : sliceAt pts i = pts := by
  rw [sliceAt]
  apply List.filter_eq_self.mpr
  intro p hp
  rw [binEdge_const hne h, binEdge_const hne h, h p hp]
  simp

lemma sliceSpreadAt_const {pts : List (Pt α)} {c : α} (hne : pts ≠ [])
    (h : ∀ p ∈ pts, p.1 = c) (i : ℕ) : sliceSpreadAt pts i = zSpread pts := by
  rw [sliceSpreadAt, sliceAt_const hne h, if_neg hne]

lemma specMaxSpread_const_x {pts : List (Pt α)} {c : α} (hne : pts ≠ [])
    (h : ∀ p ∈ pts, p.1 = c) : specMaxSpread pts = zSpread pts := by
  rw [specMaxSpread_eq_runMax, show (50 : ℕ) = 49 + 1 from rfl,
    List.range_succ_eq_map, runMax_cons, sliceSpreadAt_const hne h,
    max_eq_right (zSpread_nonneg hne)]
  apply runMax_fix
  intro i _
  rw [sliceSpreadAt_const hne h]

lemma specBestIdx_const_x {pts : List (Pt α)} {c : α} (hne : pts ≠ [])
    (h : ∀ p ∈ pts, p.1 = c) : specBestIdx pts = 0 := by
  rw [specBestIdx, show (50 : ℕ) = 49 + 1 from rfl, List.range_succ_eq_map,
    List.find?_cons_of_pos _ (by
      simp only [decide_eq_true_eq]
      rw [sliceSpreadAt_const hne h,
        specMaxSpread_const_x hne h]),
    Option.getD_some]

lemma sliceWidth_const {pts : List (Pt α)} {c : α} (hne : pts ≠ [])
    (h : ∀ p ∈ pts, p.1 = c) : sliceWidth pts = 0 := by
  rw [sliceWidth, xMinP_const hne h, xMaxP_const hne h]; ring

lemma windowPts_const {pts : List (Pt α)} {c : α} (hne : pts ≠ [])
    (h : ∀ p ∈ pts, p.1 = c) : windowPts pts c = pts := by
  rw [windowPts]
  apply List.filter_eq_self.mpr
  intro p hp
  rw [sliceWidth_const hne h, h p hp]
  simp

end ConstLemmas

section HullLemmas

variable {α : Type} [LinearOrderedField α]

lemma lexSort_idem (l : List (Pt2 α)) : lexSort (lexSort l) = lexSort l :=
  List.Sorted.insertionSort_eq (List.sorted_insertionSort lexLe l)

lemma convexHullPts_lexSort (l : List (Pt2 α)) :
    convexHullPts (lexSort l) = convexHullPts l := by
  unfold convexHullPts
  rw [lexSort_idem]

end HullLemmas

/-- C1 (amended): on a non-empty cloud in which some slice has strictly
positive z-spread and the re-extracted window's (y, z) projection is not
collinear, `calculate_circumference_at_max_z_range` computes exactly the
algorithm the specification describes: first slice of maximal z-spread,
1.5x-widened window around its midpoint, (y, z) projection, 0 below 3
points, else the convex-hull perimeter with the wrap-around edge. -/
theorem C1_circumference_amended (pts : List (Pt ℚ)) (_hne : pts ≠ [])
    (hpos : 0 < specMaxSpread pts)
    (hnd : ¬ degenerateYZ (yzProj (windowPts pts (binMid pts (specBestIdx pts))))) :
    calculate_circumference_at_max_z_range qr pts = spec_circumference qr pts := by
  unfold calculate_circumference_at_max_z_range spec_circumference
  rw [bestSlice_of_pos_spread pts hpos]
  by_cases hw : (windowPts pts (binMid pts (specBestIdx pts))).length < 3
  · simp only [hw, if_true, if_pos hw]
  · simp only [hw, if_false, if_neg hw, if_neg hnd, convexHullPts_lexSort]

/-- Witness for C1 (amended) at a unit square in the (y, z) plane: both
hypotheses hold and the code equals the specified algorithm there. -/
theorem C1_circumference_amended_witness :
    (([((0 : ℚ), 0, 0), (0, 1, 0), (0, 0, 1), (0, 1, 1)] : List (Pt ℚ)) ≠ [] ∧
      0 < specMaxSpread [((0 : ℚ), 0, 0), (0, 1, 0), (0, 0, 1), (0, 1, 1)] ∧
      ¬ degenerateYZ (yzProj (windowPts [((0 : ℚ), 0, 0), (0, 1, 0), (0, 0, 1), (0, 1, 1)]
        (binMid [((0 : ℚ), 0, 0), (0, 1, 0), (0, 0, 1), (0, 1, 1)]
          (specBestIdx [((0 : ℚ), 0, 0), (0, 1, 0), (0, 0, 1), (0, 1, 1)]))))) ∧
    calculate_circumference_at_max_z_range qr
        [((0 : ℚ), 0, 0), (0, 1, 0), (0, 0, 1), (0, 1, 1)] =
      spec_circumference qr [((0 : ℚ), 0, 0), (0, 1, 0), (0, 0, 1), (0, 1, 1)] := by
  have hconstx : ∀ p ∈ ([((0 : ℚ), 0, 0), (0, 1, 0), (0, 0, 1), (0, 1, 1)] : List (Pt ℚ)),
      p.1 = 0 := by intro p hp; fin_cases hp <;> norm_num
  have hne : ([((0 : ℚ), 0, 0), (0, 1, 0), (0, 0, 1), (0, 1, 1)] : List (Pt ℚ)) ≠ [] := by
    simp
  have hz : zSpread ([((0 : ℚ), 0, 0), (0, 1, 0), (0, 0, 1), (0, 1, 1)] : List (Pt ℚ)) = 1 := by
    norm_num [zSpread, zMaxP, zMinP, ptsZ, listMax, listMin]
  have hpos : 0 < specMaxSpread [((0 : ℚ), 0, 0), (0, 1, 0), (0, 0, 1), (0, 1, 1)] := by
    rw [specMaxSpread_const_x hne hconstx, hz]; norm_num
  have hwin : windowPts [((0 : ℚ), 0, 0), (0, 1, 0), (0, 0, 1), (0, 1, 1)]
      (binMid [((0 : ℚ), 0, 0), (0, 1, 0), (0, 0, 1), (0, 1, 1)]
        (specBestIdx [((0 : ℚ), 0, 0), (0, 1, 0), (0, 0, 1), (0, 1, 1)])) =
      [((0 : ℚ), 0, 0), (0, 1, 0), (0, 0, 1), (0, 1, 1)] := by
    rw [specBestIdx_const_x hne hconstx, binMid_const hne hconstx,
      windowPts_const hne hconstx]
  have hnd : ¬ degenerateYZ (yzProj (windowPts [((0 : ℚ), 0, 0), (0, 1, 0), (0, 0, 1), (0, 1, 1)]
      (binMid [((0 : ℚ), 0, 0), (0, 1, 0), (0, 0, 1), (0, 1, 1)]
        (specBestIdx [((0 : ℚ), 0, 0), (0, 1, 0), (0, 0, 1), (0, 1, 1)])))) := by
    rw [hwin]
    intro hdeg
    have := hdeg (0, 0) (by simp [yzProj]) (1, 0) (by simp [yzProj])
      (0, 1) (by simp [yzProj])
    norm_num [cross2] at this
  exact ⟨⟨hne, hpos, hnd⟩,
    C1_circumference_amended _ hne hpos hnd⟩

/-- Counterexample for C1 as stated: on the non-empty cloud of three points
with distinct y and constant x and z, every slice has z-spread 0, so the
scan never selects a slice and the code returns 0 — while the specified
algorithm (select a slice of maximal spread, window, hull) yields the
perimeter 4 of the degenerate hull.  The claim's universally quantified
description therefore fails. -/
theorem C1_circumference_counterexample :
    ([((0 : ℚ), 0, 0), (0, 1, 0), (0, 2, 0)] : List (Pt ℚ)) ≠ [] ∧
    calculate_circumference_at_max_z_range qr [((0 : ℚ), 0, 0), (0, 1, 0), (0, 2, 0)] = 0 ∧
    spec_circumference qr [((0 : ℚ), 0, 0), (0, 1, 0), (0, 2, 0)] = 4 ∧
    calculate_circumference_at_max_z_range qr [((0 : ℚ), 0, 0), (0, 1, 0), (0, 2, 0)] ≠
      spec_circumference qr [((0 : ℚ), 0, 0), (0, 1, 0), (0, 2, 0)] := by
  have hconstx : ∀ p ∈ ([((0 : ℚ), 0, 0), (0, 1, 0), (0, 2, 0)] : List (Pt ℚ)),
      p.1 = 0 := by intro p hp; fin_cases hp <;> norm_num
  have hconstz : ∀ p ∈ ([((0 : ℚ), 0, 0), (0, 1, 0), (0, 2, 0)] : List (Pt ℚ)),
      p.2.2 = 0 := by intro p hp; fin_cases hp <;> norm_num
  have hne : ([((0 : ℚ), 0, 0), (0, 1, 0), (0, 2, 0)] : List (Pt ℚ)) ≠ [] := by simp
  have hcode : calculate_circumference_at_max_z_range qr
      [((0 : ℚ), 0, 0), (0, 1, 0), (0, 2, 0)] = 0 :=
    circ_zero_of_const_z qr _ 0 hconstz
  have hsqrt4 : Real.sqrt 4 = 2 := by
    rw [show (4 : ℝ) = 2 ^ 2 by norm_num]
    exact Real.sqrt_sq (by norm_num)
  have hspec : spec_circumference qr [((0 : ℚ), 0, 0), (0, 1, 0), (0, 2, 0)] = 4 := by
    unfold spec_circumference
    simp only [specBestIdx_const_x hne hconstx, binMid_const hne hconstx,
      windowPts_const hne hconstx]
    rw [if_neg (by norm_num)]
    have hyz : yzProj ([((0 : ℚ), 0, 0), (0, 1, 0), (0, 2, 0)] : List (Pt ℚ)) =
        [(0, 0), (1, 0), (2, 0)] := rfl
    rw [hyz]
    have hhull : convexHullPts ([((0 : ℚ), 0), (1, 0), (2, 0)] : List (Pt2 ℚ)) =
        [(0, 0), (2, 0)] := by
      norm_num [convexHullPts, lexSort, halfHull, chainPush, cross2, lexLe,
        List.insertionSort, List.orderedInsert]
    rw [hhull]
    show ((([((0 : ℚ), 0), (2, 0)] : List (Pt2 ℚ)).zip
      (([((0 : ℚ), 0), (2, 0)] : List (Pt2 ℚ)).rotate 1)).map
        (fun pq => dist2R qr pq.1 pq.2)).sum = 4
    have hrot : (([((0 : ℚ), 0), (2, 0)] : List (Pt2 ℚ)).rotate 1) =
        [(2, 0), (0, 0)] := by
      simp [List.rotate]
    rw [hrot]
    simp only [List.zip_cons_cons, List.zip_nil_right, List.map_cons,
      List.map_nil, List.sum_cons, List.sum_nil]
    have h1 : dist2R qr ((0 : ℚ), (0 : ℚ)) ((2 : ℚ), (0 : ℚ)) = 2 := by
      rw [dist2R]
      norm_num [sqDist2, qr]
      exact hsqrt4
    have h2 : dist2R qr ((2 : ℚ), (0 : ℚ)) ((0 : ℚ), (0 : ℚ)) = 2 := by
      rw [dist2R]
      norm_num [sqDist2, qr]
      exact hsqrt4
    rw [h1, h2]
    norm_num
  refine ⟨hne, hcode, hspec, ?_⟩
  rw [hcode, hspec]
  norm_num

/-- C2: `calculate_foot_dimensions` returns foot_length = max x - min x and
foot_width = max z - min z over the cloud, and on the 8 corners of an
axis-aligned box of length L and width W the results are exactly L and W. -/
theorem C2_foot_dimensions :
    (∀ pts : List (Pt ℚ), pts ≠ [] →
      ∃ circ, calculate_foot_dimensions qr pts =
        .ok (xMaxP pts - xMinP pts, zMaxP pts - zMinP pts, circ)) ∧
    (∀ x0 y0 z0 L W H : ℚ, 0 ≤ L → 0 ≤ W →
      ∃ circ, calculate_foot_dimensions qr (boxCorners x0 y0 z0 L W H) =
        .ok (L, W, circ)) := by
  have main : ∀ pts : List (Pt ℚ), pts ≠ [] →
      calculate_foot_dimensions qr pts =
        .ok (xMaxP pts - xMinP pts, zMaxP pts - zMinP pts,
          calculate_circumference_at_max_z_range qr pts) := by
    intro pts hne
    rw [calculate_foot_dimensions, if_neg hne]
    have hx : ptsX pts ≠ [] := by simpa [ptsX] using hne
    have hz : ptsZ pts ≠ [] := by simpa [ptsZ] using hne
    have hxle : xMinP pts ≤ xMaxP pts := listMin_le_listMax hx
    have hzle : zMinP pts ≤ zMaxP pts := listMin_le_listMax hz
    rw [abs_of_nonneg (sub_nonneg.mpr hxle), abs_of_nonneg (sub_nonneg.mpr hzle)]
  refine ⟨fun pts hne => ⟨_, main pts hne⟩, fun x0 y0 z0 L W H hL hW => ?_⟩
  have hne : boxCorners x0 y0 z0 L W H ≠ [] := by simp [boxCorners]
  have hxmax : xMaxP (boxCorners x0 y0 z0 L W H) = x0 + L := by
    apply le_antisymm
    · apply listMax_le_of_forall (by simpa [ptsX] using hne)
      intro v hv
      simp only [ptsX, boxCorners, List.map_cons, List.map_nil] at hv
      fin_cases hv <;> linarith
    · apply le_listMax_of_mem
      simp [ptsX, boxCorners]
  have hxmin : xMinP (boxCorners x0 y0 z0 L W H) = x0 := by
    apply le_antisymm
    · apply listMin_le_of_mem
      simp [ptsX, boxCorners]
    · apply le_listMin_of_forall (by simpa [ptsX] using hne)
      intro v hv
      simp only [ptsX, boxCorners, List.map_cons, List.map_nil] at hv
      fin_cases hv <;> linarith
  have hzmax : zMaxP (boxCorners x0 y0 z0 L W H) = z0 + W := by
    apply le_antisymm
    · apply listMax_le_of_forall (by simpa [ptsZ] using hne)
      intro v hv
      simp only [ptsZ, boxCorners, List.map_cons, List.map_nil] at hv
      fin_cases hv <;> linarith
    · apply le_listMax_of_mem
      simp [ptsZ, boxCorners]
  have hzmin : zMinP (boxCorners x0 y0 z0 L W H) = z0 := by
    apply le_antisymm
    · apply listMin_le_of_mem
      simp [ptsZ, boxCorners]
    · apply le_listMin_of_forall (by simpa [ptsZ] using hne)
      intro v hv
      simp only [ptsZ, boxCorners, List.map_cons, List.map_nil] at hv
      fin_cases hv <;> linarith
  refine ⟨calculate_circumference_at_max_z_range qr (boxCorners x0 y0 z0 L W H), ?_⟩
  rw [main _ hne, hxmax, hxmin, hzmax, hzmin,
    (by ring : x0 + L - x0 = L), (by ring : z0 + W - z0 = W)]

/-- Witness for C2 at a concrete nonempty cloud and a concrete 3 x 2 x 1
box: the dimensions evaluate to exactly the box's length and width. -/
theorem C2_foot_dimensions_witness :
    (([((1 : ℚ), 2, 3)] : List (Pt ℚ)) ≠ [] ∧
      ∃ circ, calculate_foot_dimensions qr [((1 : ℚ), 2, 3)] =
        .ok (xMaxP [((1 : ℚ), 2, 3)] - xMinP [((1 : ℚ), 2, 3)],
          zMaxP [((1 : ℚ), 2, 3)] - zMinP [((1 : ℚ), 2, 3)], circ)) ∧
    ((0 : ℚ) ≤ 3 ∧ (0 : ℚ) ≤ 2 ∧
      ∃ circ, calculate_foot_dimensions qr (boxCorners 0 0 0 3 2 1) =
        .ok (3, 2, circ)) := by
  have h1 : ([((1 : ℚ), 2, 3)] : List (Pt ℚ)) ≠ [] := by simp
  have h2 : (0 : ℚ) ≤ 3 := by norm_num
  have h3 : (0 : ℚ) ≤ 2 := by norm_num
  exact ⟨⟨h1, C2_foot_dimensions.1 _ h1⟩,
    ⟨h2, h3, C2_foot_dimensions.2 0 0 0 3 2 1 h2 h3⟩⟩

/-- C4: `align_to_principal_component` leaves every position unchanged when
the horizontal projection of the first principal component has norm not
exceeding 1e-6; otherwise it rotates every position about the vertical axis
by the angle `arccos(clamp(dot(projected, reference), -1, 1))`, with the
sign flipped exactly when the vertical component of the cross product of the
projected vector and the reference axis is negative.  The second conjunct
records that the applied map is a genuine rotation about the vertical axis:
it preserves the y coordinate and the horizontal squared radius. -/
theorem C4_align_to_principal_component (pc : Pt ℝ) (pts : List (Pt ℝ)) :
    (align_to_principal_component pc pts =
      if 1 / 1000000 < Real.sqrt (pc.1 ^ 2 + (0 : ℝ) ^ 2 + pc.2.2 ^ 2) then
        pts.map (rotAboutVert (specAlignAngle pc))
      else pts) ∧
    (∀ θ : ℝ, ∀ p : Pt ℝ, (rotAboutVert θ p).2.1 = p.2.1 ∧
      (rotAboutVert θ p).1 ^ 2 + (rotAboutVert θ p).2.2 ^ 2 =
        p.1 ^ 2 + p.2.2 ^ 2) := by
  constructor
  · simp only [align_to_principal_component, specAlignAngle, rotAboutVert,
      mul_one, mul_zero, add_zero, zero_mul, sub_zero]
    rfl
  · intro θ p
    refine ⟨rfl, ?_⟩
    simp only [rotAboutVert]
    linear_combination (p.1 ^ 2 + p.2.2 ^ 2) * Real.sin_sq_add_cos_sq θ

/-- C8: the loader's color normalization equals the specified behavior: one
shared minimum and maximum over all three channels combined rescale all
three channels whenever some channel value lies outside [0, 1], and the
values are stored unchanged when every value already lies in [0, 1]. -/
theorem C8_color_normalization (cs : List (Pt ℚ)) (hne : cs ≠ []) :
    normalizeColors cs = specNormalizeColors cs := by
  have hvals : channelVals cs ≠ [] := by
    cases cs with
    | nil => exact absurd rfl hne
    | cons c r => simp [channelVals]
  have hcond : (1 < listMax (channelVals cs) ∨ listMin (channelVals cs) < 0) ↔
      (∃ v ∈ channelVals cs, v < 0 ∨ 1 < v) := by
    constructor
    · rintro (h | h)
      · exact ⟨listMax (channelVals cs), listMax_mem hvals, Or.inr h⟩
      · exact ⟨listMin (channelVals cs), listMin_mem hvals, Or.inl h⟩
    · rintro ⟨v, hv, h | h⟩
      · exact Or.inr (lt_of_le_of_lt (listMin_le_of_mem hv) h)
      · exact Or.inl (lt_of_lt_of_le h (le_listMax_of_mem hv))
  unfold normalizeColors specNormalizeColors
  by_cases h : ∃ v ∈ channelVals cs, v < 0 ∨ 1 < v
  · rw [if_pos (hcond.mpr h), if_pos h]
  · rw [if_neg (fun hc => h (hcond.mp hc)), if_neg h]

/-- Witness for C8 at a concrete two-point color array with an out-of-range
channel value. -/
theorem C8_color_normalization_witness :
    (([((2 : ℚ), 0, 0), (0, 1, 1)] : List (Pt ℚ)) ≠ []) ∧
    normalizeColors [((2 : ℚ), 0, 0), (0, 1, 1)] =
      specNormalizeColors [((2 : ℚ), 0, 0), (0, 1, 1)] :=
  ⟨by simp, C8_color_normalization _ (by simp)⟩

lemma lookup_mem {β : Type} {l : List (String × β)} {k : String} {b : β}
    (h : l.lookup k = some b) : (k, b) ∈ l := by
  induction l with
  | nil => simp [List.lookup] at h
  | cons hd tl ih =>
    rw [List.lookup] at h
    rcases hbeq : (k == hd.1) with _ | _
    · rw [hbeq] at h
      exact List.mem_cons_of_mem hd (ih h)
    · rw [hbeq] at h
      have hk : k = hd.1 := eq_of_beq hbeq
      have hb : hd.2 = b := by
        cases hd
        simpa using h
      cases hd
      simp only at hk hb
      rw [hk, ← hb]
      exact List.mem_cons_self _ _

/-- Counterexample for C7 as stated: a parsable input whose vertex element
is present with 5 rows but lacks the required `z` property.  None of the
claim's three failure conditions (unparsable, vertex missing, zero point
count) holds, yet loading fails (with a `KeyError` on `z`), refuting the
claimed "exactly when". -/
theorem C7_load_counterexample :
    (some [("vertex", [("x", [(1 : ℚ), 2, 3, 4, 5]), ("y", [0, 0, 0, 0, 0])])] :
      PlyInput) ≠ none ∧
    (vertexElt (some [("vertex", [("x", [(1 : ℚ), 2, 3, 4, 5]), ("y", [0, 0, 0, 0, 0])])])).isSome = true ∧
    vertexRowCount (some [("vertex", [("x", [(1 : ℚ), 2, 3, 4, 5]), ("y", [0, 0, 0, 0, 0])])]) = 5 ∧
    UniformInput (some [("vertex", [("x", [(1 : ℚ), 2, 3, 4, 5]), ("y", [0, 0, 0, 0, 0])])]) ∧
    load_ply_file (some [("vertex", [("x", [(1 : ℚ), 2, 3, 4, 5]), ("y", [0, 0, 0, 0, 0])])]) =
      .error (.keyError "z") ∧
    ¬ ∃ c, load_ply_file
        (some [("vertex", [("x", [(1 : ℚ), 2, 3, 4, 5]), ("y", [0, 0, 0, 0, 0])])]) =
      .ok (some c) := by
  refine ⟨by simp, by simp [vertexElt], by simp [vertexRowCount, vertexElt],
    ?_, ?_, ?_⟩
  · intro e he p hp q hq
    simp only [List.mem_cons, List.not_mem_nil, or_false] at he
    subst he
    simp only [List.mem_cons, List.not_mem_nil, or_false] at hp hq
    rcases hp with hp | hp <;> rcases hq with hq | hq <;> subst hp <;> subst hq <;> rfl
  · rfl
  · rintro ⟨c, hc⟩
    rw [show load_ply_file
        (some [("vertex", [("x", [(1 : ℚ), 2, 3, 4, 5]), ("y", [0, 0, 0, 0, 0])])]) =
      .error (.keyError "z") from rfl] at hc
    cases hc

/-- C7 (amended): under the parser's equal-column-length invariant, loading
succeeds exactly when the input parses, the vertex element exists, the
required x, y, z properties exist, the normal companions ny and nz exist
whenever nx is present, and the vertex row count is nonzero; on success the
returned cloud is populated with one point per vertex row. -/
theorem C7_load_outcomes_amended (i : PlyInput) (hu : UniformInput i) :
    ((∃ c, load_ply_file i = .ok (some c)) ↔
      (i ≠ none ∧ (vertexElt i).isSome = true ∧ hasProp i "x" ∧ hasProp i "y" ∧
        hasProp i "z" ∧ (hasProp i "nx" → hasProp i "ny" ∧ hasProp i "nz") ∧
        vertexRowCount i ≠ 0)) ∧
    (∀ c, load_ply_file i = .ok (some c) → c.points.length = vertexRowCount i) := by
  cases i with
  | none =>
    refine ⟨?_, ?_⟩
    · simp [load_ply_file]
    · intro c hc; simp [load_ply_file] at hc
  | some elts =>
    cases hv : elts.lookup "vertex" with
    | none =>
      refine ⟨?_, ?_⟩
      · simp [load_ply_file, hv, vertexElt]
      · intro c hc; simp [load_ply_file, hv] at hc
    | some v =>
      have hvelt : vertexElt (some elts) = some v := by simp [vertexElt, hv]
      have huv : ∀ p ∈ v, ∀ q ∈ v, p.2.length = q.2.length :=
        hu ("vertex", v) (lookup_mem hv)
      cases hx : v.lookup "x" with
      | none =>
        refine ⟨?_, ?_⟩
        · simp [load_ply_file, hv, hx, hasProp, hvelt]
        · intro c hc; simp [load_ply_file, hv, hx] at hc
      | some xs =>
      cases hy : v.lookup "y" with
      | none =>
        refine ⟨?_, ?_⟩
        · simp [load_ply_file, hv, hx, hy, hasProp, hvelt]
        · intro c hc; simp [load_ply_file, hv, hx, hy] at hc
      | some ys =>
      cases hz : v.lookup "z" with
      | none =>
        refine ⟨?_, ?_⟩
        · simp [load_ply_file, hv, hx, hy, hz, hasProp, hvelt]
        · intro c hc; simp [load_ply_file, hv, hx, hy, hz] at hc
      | some zs =>
      have hrc : vertexRowCount (some elts) = xs.length := by
        rw [vertexRowCount, hvelt]
        cases v with
        | nil => simp [List.lookup] at hx
        | cons hd tl =>
          exact (huv _ (lookup_mem hx) hd (List.mem_cons_self hd tl)).symm
      have hxy : ys.length = xs.length := huv _ (lookup_mem hy) _ (lookup_mem hx)
      have hxz : zs.length = xs.length := huv _ (lookup_mem hz) _ (lookup_mem hx)
      have hptslen : (xs.zip (ys.zip zs)).length = xs.length := by
        simp [List.length_zip, hxy, hxz]
      cases hnx : v.lookup "nx" with
      | some nxs =>
        cases hny : v.lookup "ny" with
        | none =>
          refine ⟨?_, ?_⟩
          · constructor
            · rintro ⟨c, hc⟩
              simp [load_ply_file, hv, hx, hy, hz, hnx, hny] at hc
            · rintro ⟨-, -, -, -, -, himp, -⟩
              have := himp (by simp [hasProp, hvelt, hnx])
              simp [hasProp, hvelt, hny] at this
          · intro c hc; simp [load_ply_file, hv, hx, hy, hz, hnx, hny] at hc
        | some nys =>
        cases hnz : v.lookup "nz" with
        | none =>
          refine ⟨?_, ?_⟩
          · constructor
            · rintro ⟨c, hc⟩
              simp [load_ply_file, hv, hx, hy, hz, hnx, hny, hnz] at hc
            · rintro ⟨-, -, -, -, -, himp, -⟩
              have := himp (by simp [hasProp, hvelt, hnx])
              simp [hasProp, hvelt, hnz] at this
          · intro c hc; simp [load_ply_file, hv, hx, hy, hz, hnx, hny, hnz] at hc
        | some nzs =>
          have hmain : ∀ colors,
              (load_ply_file (some elts) =
                if (xs.zip (ys.zip zs)).length = 0 then .ok none
                else .ok (some ⟨xs.zip (ys.zip zs),
                  some (nxs.zip (nys.zip nzs)), colors⟩)) →
              ((∃ c, load_ply_file (some elts) = .ok (some c)) ↔
                (some elts ≠ none ∧ (vertexElt (some elts)).isSome = true ∧
                  hasProp (some elts) "x" ∧ hasProp (some elts) "y" ∧
                  hasProp (some elts) "z" ∧
                  (hasProp (some elts) "nx" →
                    hasProp (some elts) "ny" ∧ hasProp (some elts) "nz") ∧
                  vertexRowCount (some elts) ≠ 0)) ∧
              (∀ c, load_ply_file (some elts) = .ok (some c) →
                c.points.length = vertexRowCount (some elts)) := by
            intro colors heq
            by_cases hzero : (xs.zip (ys.zip zs)).length = 0
            · rw [if_pos hzero] at heq
              refine ⟨?_, ?_⟩
              · simp only [heq]
                constructor
                · rintro ⟨c, hc⟩; cases hc
                · rintro ⟨-, -, -, -, -, -, hrc0⟩
                  exact absurd (hrc ▸ (hptslen ▸ hzero)) hrc0
              · intro c hc; rw [heq] at hc; cases hc
            · rw [if_neg hzero] at heq
              refine ⟨?_, ?_⟩
              · simp only [heq]
                constructor
                · intro _
                  refine ⟨by simp, by simp [hvelt], by simp [hasProp, hvelt, hx],
                    by simp [hasProp, hvelt, hy], by simp [hasProp, hvelt, hz],
                    fun _ => ⟨by simp [hasProp, hvelt, hny], by simp [hasProp, hvelt, hnz]⟩,
                    by rw [hrc, ← hptslen]; exact hzero⟩
                · intro _; exact ⟨_, rfl⟩
              · intro c hc
                rw [heq] at hc
                cases hc
                rw [hrc]
                exact hptslen
          cases hf0 : v.lookup "f_dc_0" with
          | none =>
            exact hmain none (by
              simp [load_ply_file, hv, hx, hy, hz, hnx, hny, hnz, hf0])
          | some rs =>
          cases hf1 : v.lookup "f_dc_1" with
          | none =>
            exact hmain none (by
              simp [load_ply_file, hv, hx, hy, hz, hnx, hny, hnz, hf0, hf1])
          | some gs =>
          cases hf2 : v.lookup "f_dc_2" with
          | none =>
            exact hmain none (by
              simp [load_ply_file, hv, hx, hy, hz, hnx, hny, hnz, hf0, hf1, hf2])
          | some bs =>
            have hraw : (rs.zip (gs.zip bs)).length = xs.length := by
              have h0 : rs.length = xs.length := huv _ (lookup_mem hf0) _ (lookup_mem hx)
              have h1 : gs.length = xs.length := huv _ (lookup_mem hf1) _ (lookup_mem hx)
              have h2 : bs.length = xs.length := huv _ (lookup_mem hf2) _ (lookup_mem hx)
              simp [List.length_zip, h0, h1, h2]
            by_cases hxe : xs.length = 0
            · have hrawnil : rs.zip (gs.zip bs) = [] :=
                List.length_eq_zero.mp (hraw.trans hxe)
              have hload : load_ply_file (some elts) = .error .emptyReduce := by
                simp [load_ply_file, hv, hx, hy, hz, hnx, hny, hnz, hf0, hf1, hf2,
                  hrawnil]
              refine ⟨?_, ?_⟩
              · rw [hload]
                constructor
                · rintro ⟨c, hc⟩; cases hc
                · rintro ⟨-, -, -, -, -, -, hrc0⟩
                  exact absurd (hrc ▸ hxe) hrc0
              · intro c hc; rw [hload] at hc; cases hc
            · have hrawne : rs.zip (gs.zip bs) ≠ [] := by
                intro hc
                exact hxe (hraw.symm.trans (by rw [hc]; rfl))
              exact hmain (some (normalizeColors (rs.zip (gs.zip bs)))) (by
                simp [load_ply_file, hv, hx, hy, hz, hnx, hny, hnz, hf0, hf1, hf2,
                  hrawne])
      | none =>
        have hmain : ∀ colors,
            (load_ply_file (some elts) =
              if (xs.zip (ys.zip zs)).length = 0 then .ok none
              else .ok (some ⟨xs.zip (ys.zip zs), none, colors⟩)) →
            ((∃ c, load_ply_file (some elts) = .ok (some c)) ↔
              (some elts ≠ none ∧ (vertexElt (some elts)).isSome = true ∧
                hasProp (some elts) "x" ∧ hasProp (some elts) "y" ∧
                hasProp (some elts) "z" ∧
                (hasProp (some elts) "nx" →
                  hasProp (some elts) "ny" ∧ hasProp (some elts) "nz") ∧
                vertexRowCount (some elts) ≠ 0)) ∧
            (∀ c, load_ply_file (some elts) = .ok (some c) →
              c.points.length = vertexRowCount (some elts)) := by
          intro colors heq
          by_cases hzero : (xs.zip (ys.zip zs)).length = 0
          · rw [if_pos hzero] at heq
            refine ⟨?_, ?_⟩
            · simp only [heq]
              constructor
              · rintro ⟨c, hc⟩; cases hc
              · rintro ⟨-, -, -, -, -, -, hrc0⟩
                exact absurd (hrc ▸ (hptslen ▸ hzero)) hrc0
            · intro c hc; rw [heq] at hc; cases hc
          · rw [if_neg hzero] at heq
            refine ⟨?_, ?_⟩
            · simp only [heq]
              constructor
              · intro _
                refine ⟨by simp, by simp [hvelt], by simp [hasProp, hvelt, hx],
                  by simp [hasProp, hvelt, hy], by simp [hasProp, hvelt, hz],
                  fun hcontra => absurd hcontra (by simp [hasProp, hvelt, hnx]),
                  by rw [hrc, ← hptslen]; exact hzero⟩
              · intro _; exact ⟨_, rfl⟩
            · intro c hc
              rw [heq] at hc
              cases hc
              rw [hrc]
              exact hptslen
        cases hf0 : v.lookup "f_dc_0" with
        | none =>
          exact hmain none (by simp [load_ply_file, hv, hx, hy, hz, hnx, hf0])
        | some rs =>
        cases hf1 : v.lookup "f_dc_1" with
        | none =>
          exact hmain none (by simp [load_ply_file, hv, hx, hy, hz, hnx, hf0, hf1])
        | some gs =>
        cases hf2 : v.lookup "f_dc_2" with
        | none =>
          exact hmain none (by
            simp [load_ply_file, hv, hx, hy, hz, hnx, hf0, hf1, hf2])
        | some bs =>
          have hraw : (rs.zip (gs.zip bs)).length = xs.length := by
            have h0 : rs.length = xs.length := huv _ (lookup_mem hf0) _ (lookup_mem hx)
            have h1 : gs.length = xs.length := huv _ (lookup_mem hf1) _ (lookup_mem hx)
            have h2 : bs.length = xs.length := huv _ (lookup_mem hf2) _ (lookup_mem hx)
            simp [List.length_zip, h0, h1, h2]
          by_cases hxe : xs.length = 0
          · have hrawnil : rs.zip (gs.zip bs) = [] :=
              List.length_eq_zero.mp (hraw.trans hxe)
            have hload : load_ply_file (some elts) = .error .emptyReduce := by
              simp [load_ply_file, hv, hx, hy, hz, hnx, hf0, hf1, hf2, hrawnil]
            refine ⟨?_, ?_⟩
            · rw [hload]
              constructor
              · rintro ⟨c, hc⟩; cases hc
              · rintro ⟨-, -, -, -, -, -, hrc0⟩
                exact absurd (hrc ▸ hxe) hrc0
            · intro c hc; rw [hload] at hc; cases hc
          · have hrawne : rs.zip (gs.zip bs) ≠ [] := by
              intro hc
              exact hxe (hraw.symm.trans (by rw [hc]; rfl))
            exact hmain (some (normalizeColors (rs.zip (gs.zip bs)))) (by
              simp [load_ply_file, hv, hx, hy, hz, hnx, hf0, hf1, hf2, hrawne])

/-- Witness for C7 (amended) at a concrete two-row fully populated input:
the input is uniform, all success conditions hold, and loading succeeds. -/
theorem C7_load_outcomes_amended_witness :
    UniformInput (some [("vertex",
      [("x", [(1 : ℚ), 2]), ("y", [0, 0]), ("z", [3, 4])])]) ∧
    (∃ c, load_ply_file (some [("vertex",
      [("x", [(1 : ℚ), 2]), ("y", [0, 0]), ("z", [3, 4])])]) = .ok (some c)) := by
  have hu : UniformInput (some [("vertex",
      [("x", [(1 : ℚ), 2]), ("y", [0, 0]), ("z", [3, 4])])]) := by
    intro e he p hp q hq
    simp only [List.mem_cons, List.not_mem_nil, or_false] at he
    subst he
    simp only [List.mem_cons, List.not_mem_nil, or_false] at hp hq
    rcases hp with hp | hp | hp <;> rcases hq with hq | hq | hq <;>
      subst hp <;> subst hq <;> rfl
  refine ⟨hu, ?_⟩
  apply (C7_load_outcomes_amended _ hu).1.mpr
  refine ⟨by simp, by simp [vertexElt], ?_, ?_, ?_, ?_, ?_⟩
  · simp [hasProp, vertexElt, List.lookup]
  · simp [hasProp, vertexElt, List.lookup]
  · simp [hasProp, vertexElt, List.lookup]
  · intro h
    simp [hasProp, vertexElt, List.lookup] at h
  · simp [vertexRowCount, vertexElt]

section PipelineLemmas

lemma sqDist3_self {α : Type} [LinearOrderedField α] (p : Pt α) :
    sqDist3 p p = 0 := by
  simp [sqDist3]

lemma align_skip_vertical (pts : List (Pt ℝ)) :
    align_to_principal_component ((0 : ℝ), 1, 0) pts = pts := by
  have h : ¬ ((1 : ℝ) / 1000000 <
      Real.sqrt (((0 : ℝ), (1 : ℝ), (0 : ℝ)).1 ^ 2 + (0 : ℝ) ^ 2 +
        ((0 : ℝ), (1 : ℝ), (0 : ℝ)).2.2 ^ 2)) := by
    norm_num [Real.sqrt_zero]
  unfold align_to_principal_component
  exact if_neg h

lemma kNearestSq_replicate (n : ℕ) :
    kNearestSq (List.replicate (n + 1) ((0 : ℝ), 0, 0)) ((0 : ℝ), 0, 0) =
      ((List.replicate n (0 : ℝ)).insertionSort (· ≤ ·)).take 30 := by
  unfold kNearestSq
  rw [List.replicate_succ, List.erase_cons_head, List.map_replicate,
    sqDist3_self]

lemma meanKDist_replicate (n : ℕ) :
    meanKDist id (List.replicate (n + 1) ((0 : ℝ), 0, 0)) ((0 : ℝ), 0, 0) = 0 := by
  unfold meanKDist
  rw [kNearestSq_replicate]
  dsimp only
  have hmem : ∀ y ∈ (((List.replicate n (0 : ℝ)).insertionSort (· ≤ ·)).take 30).map
      (fun d => Real.sqrt (id d)), y = 0 := by
    intro y hy
    rcases List.mem_map.mp hy with ⟨x, hx, hxy⟩
    have hx' := (List.perm_insertionSort _ _).mem_iff.mp (List.mem_of_mem_take hx)
    rw [List.eq_of_mem_replicate hx'] at hxy
    simpa [Real.sqrt_zero] using hxy.symm
  rw [List.sum_eq_zero hmem, zero_div]

lemma statKeep_replicate (n : ℕ) :
    statKeep id (List.replicate (n + 1) ((0 : ℝ), 0, 0)) ((0 : ℝ), 0, 0) := by
  unfold statKeep
  have hmean : statMean id (List.replicate (n + 1) ((0 : ℝ), 0, 0)) = 0 := by
    unfold statMean
    rw [List.map_replicate, meanKDist_replicate]
    simp [meanR, List.sum_replicate]
  have hstd : statStd id (List.replicate (n + 1) ((0 : ℝ), 0, 0)) = 0 := by
    unfold statStd
    rw [hmean, List.map_replicate, meanKDist_replicate]
    simp [meanR, List.sum_replicate, Real.sqrt_zero]
  rw [meanKDist_replicate, hmean, hstd]
  norm_num

lemma statFilter_replicate (n : ℕ) :
    statFilter id (List.replicate (n + 1) ((0 : ℝ), 0, 0)) =
      List.replicate (n + 1) ((0 : ℝ), 0, 0) := by
  unfold statFilter
  apply List.filter_replicate_of_pos
  simp only [decide_eq_true_eq]
  exact statKeep_replicate n

lemma radiusFilter_replicate (n : ℕ) :
    radiusFilter (List.replicate (n + 1) ((0 : ℝ), 0, 0)) =
      if 10 ≤ n then List.replicate (n + 1) ((0 : ℝ), 0, 0) else [] := by
  unfold radiusFilter
  have hcount : ((List.replicate (n + 1) ((0 : ℝ), 0, 0)).erase ((0 : ℝ), 0, 0)).filter
      (fun q => decide (sqDist3 ((0 : ℝ), 0, 0) q ≤ (1 / 50) ^ 2)) =
      List.replicate n ((0 : ℝ), 0, 0) := by
    rw [List.replicate_succ, List.erase_cons_head]
    apply List.filter_replicate_of_pos
    simp only [decide_eq_true_eq, sqDist3_self]
    norm_num
  rw [List.filter_replicate, hcount, List.length_replicate]
  by_cases h : 10 ≤ n
  · rw [if_pos (decide_eq_true h), if_pos h]
  · rw [if_neg (by simpa using h), if_neg h]

lemma remove_noise_replicate_eleven :
    remove_noise id (List.replicate 11 ((0 : ℝ), 0, 0)) =
      List.replicate 11 ((0 : ℝ), 0, 0) := by
  unfold remove_noise
  rw [show (11 : ℕ) = 10 + 1 from rfl, statFilter_replicate 10,
    radiusFilter_replicate 10, if_pos (by norm_num)]

lemma remove_noise_replicate_three :
    remove_noise id (List.replicate 3 ((0 : ℝ), 0, 0)) = [] := by
  unfold remove_noise
  rw [show (3 : ℕ) = 2 + 1 from rfl, statFilter_replicate 2,
    radiusFilter_replicate 2, if_neg (by norm_num)]

lemma dims_replicate_eleven :
    calculate_foot_dimensions id (List.replicate 11 ((0 : ℝ), 0, 0)) =
      .ok (0, 0, 0) := by
  have hne : List.replicate 11 (((0, 0, 0) : Pt ℝ)) ≠ [] := by simp
  have hx : ∀ p ∈ List.replicate 11 (((0, 0, 0) : Pt ℝ)), p.1 = 0 := by
    intro p hp
    rw [List.eq_of_mem_replicate hp]
  have hz : ∀ p ∈ List.replicate 11 (((0, 0, 0) : Pt ℝ)), p.2.2 = 0 := by
    intro p hp
    rw [List.eq_of_mem_replicate hp]
  have hzmax : zMaxP (List.replicate 11 (((0, 0, 0) : Pt ℝ))) = 0 := by
    apply listMax_const (by simp [ptsZ])
    intro v hv
    rcases List.mem_map.mp hv with ⟨p, hp, hpv⟩
    exact hpv ▸ hz p hp
  have hzmin : zMinP (List.replicate 11 (((0, 0, 0) : Pt ℝ))) = 0 := by
    apply listMin_const (by simp [ptsZ])
    intro v hv
    rcases List.mem_map.mp hv with ⟨p, hp, hpv⟩
    exact hpv ▸ hz p hp
  rw [calculate_foot_dimensions, if_neg hne, xMaxP_const hne hx,
    xMinP_const hne hx, hzmax, hzmin, circ_zero_of_const_z id _ 0 hz]
  norm_num

end PipelineLemmas

section DenoiserLemmas

lemma sqrt_of_sq {a b : ℝ} (h : a = b ^ 2) (hb : 0 ≤ b) : Real.sqrt a = b := by
  rw [h]
  exact Real.sqrt_sq hb

lemma statStd_nonneg {α : Type} [LinearOrderedField α] (toR : α → ℝ)
    (pts : List (Pt α)) : 0 ≤ statStd toR pts := Real.sqrt_nonneg _

lemma meanKDist_eval (pts : List (Pt ℝ)) (p : Pt ℝ) (l : List ℝ) (s : ℝ)
    (h : (pts.erase p).map (sqDist3 p) = l) (hlen : l.length ≤ 30)
    (hs : (l.map (fun d => Real.sqrt (id d))).sum = s) :
    meanKDist id pts p = s / l.length := by
  unfold meanKDist kNearestSq
  rw [h]
  dsimp only
  rw [List.take_of_length_le (by rw [List.length_insertionSort]; exact hlen),
    List.length_insertionSort, ← hs]
  congr 1
  exact ((List.perm_insertionSort _ l).map _).sum_eq

lemma noiseCloud_map (g : Pt ℝ → ℝ) :
    noiseCloud.map g = List.replicate 10 (g ((0, 0, 0) : Pt ℝ)) ++
      [g (((1 / 100 : ℝ), 0, 0) : Pt ℝ), g (((1 : ℝ), 0, 0) : Pt ℝ)] := by
  rw [show noiseCloud = List.replicate 10 (((0, 0, 0) : Pt ℝ)) ++
    [(((1 / 100 : ℝ), 0, 0) : Pt ℝ), (((1 : ℝ), 0, 0) : Pt ℝ)] from rfl,
    List.map_append, List.map_replicate]
  rfl

lemma noiseCloudMid_map (g : Pt ℝ → ℝ) :
    noiseCloudMid.map g = List.replicate 10 (g ((0, 0, 0) : Pt ℝ)) ++
      [g (((1 / 100 : ℝ), 0, 0) : Pt ℝ)] := by
  rw [show noiseCloudMid = List.replicate 10 (((0, 0, 0) : Pt ℝ)) ++
    [(((1 / 100 : ℝ), 0, 0) : Pt ℝ)] from rfl,
    List.map_append, List.map_replicate]
  rfl

lemma noiseCloud_filter (q : Pt ℝ → Bool) (h1 : q ((0, 0, 0) : Pt ℝ) = true)
    (h2 : q (((1 / 100 : ℝ), 0, 0) : Pt ℝ) = true)
    (h3 : q (((1 : ℝ), 0, 0) : Pt ℝ) = false) :
    noiseCloud.filter q = noiseCloudMid := by
  rw [show noiseCloud = List.replicate 10 (((0, 0, 0) : Pt ℝ)) ++
    [(((1 / 100 : ℝ), 0, 0) : Pt ℝ), (((1 : ℝ), 0, 0) : Pt ℝ)] from rfl,
    List.filter_append, List.filter_replicate_of_pos h1,
    List.filter_cons_of_pos h2, List.filter_cons_of_neg (by
      rw [h3]; exact Bool.false_ne_true),
    List.filter_nil]
  rfl

lemma noiseCloudMid_filter_keep (q : Pt ℝ → Bool)
    (h1 : q ((0, 0, 0) : Pt ℝ) = true)
    (h2 : q (((1 / 100 : ℝ), 0, 0) : Pt ℝ) = true) :
    noiseCloudMid.filter q = noiseCloudMid := by
  rw [show noiseCloudMid = List.replicate 10 (((0, 0, 0) : Pt ℝ)) ++
    [(((1 / 100 : ℝ), 0, 0) : Pt ℝ)] from rfl,
    List.filter_append, List.filter_replicate_of_pos h1,
    List.filter_cons_of_pos h2, List.filter_nil]

lemma noiseCloudMid_filter_drop (q : Pt ℝ → Bool)
    (h1 : q ((0, 0, 0) : Pt ℝ) = true)
    (h2 : q (((1 / 100 : ℝ), 0, 0) : Pt ℝ) = false) :
    noiseCloudMid.filter q = List.replicate 10 (((0, 0, 0) : Pt ℝ)) := by
  rw [show noiseCloudMid = List.replicate 10 (((0, 0, 0) : Pt ℝ)) ++
    [(((1 / 100 : ℝ), 0, 0) : Pt ℝ)] from rfl,
    List.filter_append, List.filter_replicate_of_pos h1,
    List.filter_cons_of_neg (by rw [h2]; exact Bool.false_ne_true),
    List.filter_nil, List.append_nil]

lemma noiseCloud_erase_core :
    noiseCloud.erase ((0, 0, 0) : Pt ℝ) =
      List.replicate 9 (((0, 0, 0) : Pt ℝ)) ++
        [(((1 / 100 : ℝ), 0, 0) : Pt ℝ), (((1 : ℝ), 0, 0) : Pt ℝ)] := by
  rw [show noiseCloud = ((0, 0, 0) : Pt ℝ) ::
    (List.replicate 9 (((0, 0, 0) : Pt ℝ)) ++
      [(((1 / 100 : ℝ), 0, 0) : Pt ℝ), (((1 : ℝ), 0, 0) : Pt ℝ)]) from rfl,
    List.erase_cons_head]

lemma noiseCloud_erase_mid :
    noiseCloud.erase (((1 / 100 : ℝ), 0, 0) : Pt ℝ) =
      List.replicate 10 (((0, 0, 0) : Pt ℝ)) ++ [(((1 : ℝ), 0, 0) : Pt ℝ)] := by
  rw [noiseCloud, List.erase_append_right _ (by
    intro hmem
    have := List.eq_of_mem_replicate hmem
    norm_num [Prod.ext_iff] at this), List.erase_cons_head]

lemma noiseCloud_erase_far :
    noiseCloud.erase (((1 : ℝ), 0, 0) : Pt ℝ) =
      List.replicate 10 (((0, 0, 0) : Pt ℝ)) ++ [(((1 / 100 : ℝ), 0, 0) : Pt ℝ)] := by
  rw [noiseCloud, List.erase_append_right _ (by
    intro hmem
    have := List.eq_of_mem_replicate hmem
    norm_num [Prod.ext_iff] at this),
    List.erase_cons, if_neg (by
      simp only [beq_iff_eq]
      norm_num [Prod.ext_iff]), List.erase_cons_head]

lemma noiseCloudMid_erase_core :
    noiseCloudMid.erase ((0, 0, 0) : Pt ℝ) =
      List.replicate 9 (((0, 0, 0) : Pt ℝ)) ++ [(((1 / 100 : ℝ), 0, 0) : Pt ℝ)] := by
  rw [show noiseCloudMid = ((0, 0, 0) : Pt ℝ) ::
    (List.replicate 9 (((0, 0, 0) : Pt ℝ)) ++
      [(((1 / 100 : ℝ), 0, 0) : Pt ℝ)]) from rfl,
    List.erase_cons_head]

lemma noiseCloudMid_erase_mid :
    noiseCloudMid.erase (((1 / 100 : ℝ), 0, 0) : Pt ℝ) =
      List.replicate 10 (((0, 0, 0) : Pt ℝ)) := by
  rw [noiseCloudMid, List.erase_append_right _ (by
    intro hmem
    have := List.eq_of_mem_replicate hmem
    norm_num [Prod.ext_iff] at this), List.erase_cons_head,
    List.append_nil]

lemma mkd_cloud_core : meanKDist id noiseCloud ((0, 0, 0) : Pt ℝ) = 101 / 1100 := by
  have heval := meanKDist_eval noiseCloud ((0, 0, 0) : Pt ℝ)
    (List.replicate 9 (0 : ℝ) ++ [1 / 10000, 1]) (101 / 100)
    (by
      rw [noiseCloud_erase_core, List.map_append, List.map_replicate]
      norm_num [sqDist3])
    (by simp)
    (by
      rw [List.map_append, List.map_replicate]
      have h2 : Real.sqrt ((1 : ℝ) / 10000) = 1 / 100 :=
        sqrt_of_sq (by norm_num) (by norm_num)
      simp only [id_eq, Real.sqrt_zero, List.map_cons, List.map_nil, h2,
        Real.sqrt_one, List.sum_append, List.sum_replicate, smul_zero,
        List.sum_cons, List.sum_nil]
      norm_num)
  rw [heval]
  norm_num

lemma mkd_cloud_mid : meanKDist id noiseCloud (((1 / 100 : ℝ), 0, 0) : Pt ℝ) =
    109 / 1100 := by
  have heval := meanKDist_eval noiseCloud (((1 / 100 : ℝ), 0, 0) : Pt ℝ)
    (List.replicate 10 ((1 : ℝ) / 10000) ++ [9801 / 10000]) (109 / 100)
    (by
      rw [noiseCloud_erase_mid, List.map_append, List.map_replicate]
      norm_num [sqDist3])
    (by simp)
    (by
      rw [List.map_append, List.map_replicate]
      have h1 : Real.sqrt ((1 : ℝ) / 10000) = 1 / 100 :=
        sqrt_of_sq (by norm_num) (by norm_num)
      have h2 : Real.sqrt ((9801 : ℝ) / 10000) = 99 / 100 :=
        sqrt_of_sq (by norm_num) (by norm_num)
      simp only [id_eq, List.map_cons, List.map_nil, h1, h2,
        List.sum_append, List.sum_replicate, List.sum_cons, List.sum_nil,
        nsmul_eq_mul]
      norm_num)
  rw [heval]
  norm_num

lemma mkd_cloud_far : meanKDist id noiseCloud (((1 : ℝ), 0, 0) : Pt ℝ) =
    1099 / 1100 := by
  have heval := meanKDist_eval noiseCloud (((1 : ℝ), 0, 0) : Pt ℝ)
    (List.replicate 10 (1 : ℝ) ++ [9801 / 10000]) (1099 / 100)
    (by
      rw [noiseCloud_erase_far, List.map_append, List.map_replicate]
      norm_num [sqDist3])
    (by simp)
    (by
      rw [List.map_append, List.map_replicate]
      have h2 : Real.sqrt ((9801 : ℝ) / 10000) = 99 / 100 :=
        sqrt_of_sq (by norm_num) (by norm_num)
      simp only [id_eq, Real.sqrt_one, List.map_cons, List.map_nil, h2,
        List.sum_append, List.sum_replicate, List.sum_cons, List.sum_nil,
        nsmul_eq_mul]
      norm_num)
  rw [heval]
  norm_num

lemma statMean_noiseCloud : statMean id noiseCloud = 1109 / 6600 := by
  unfold statMean
  rw [noiseCloud_map, mkd_cloud_core, mkd_cloud_mid, mkd_cloud_far]
  simp only [meanR, List.sum_append, List.sum_replicate, List.sum_cons,
    List.sum_nil, nsmul_eq_mul, List.length_append, List.length_replicate,
    List.length_cons, List.length_nil]
  norm_num

lemma statStd_noiseCloud : statStd id noiseCloud =
    Real.sqrt (547039 / 8712000) := by
  unfold statStd
  congr 1
  rw [statMean_noiseCloud, noiseCloud_map, mkd_cloud_core, mkd_cloud_mid,
    mkd_cloud_far]
  simp only [meanR, List.sum_append, List.sum_replicate, List.sum_cons,
    List.sum_nil, nsmul_eq_mul, List.length_append, List.length_replicate,
    List.length_cons, List.length_nil]
  norm_num

lemma statKeep_noiseCloud_core : statKeep id noiseCloud ((0, 0, 0) : Pt ℝ) := by
  unfold statKeep
  rw [mkd_cloud_core, statMean_noiseCloud]
  have h := statStd_nonneg id noiseCloud
  nlinarith [h]

lemma statKeep_noiseCloud_mid :
    statKeep id noiseCloud (((1 / 100 : ℝ), 0, 0) : Pt ℝ) := by
  unfold statKeep
  rw [mkd_cloud_mid, statMean_noiseCloud]
  have h := statStd_nonneg id noiseCloud
  nlinarith [h]

lemma statKeep_noiseCloud_far :
    ¬ statKeep id noiseCloud (((1 : ℝ), 0, 0) : Pt ℝ) := by
  unfold statKeep
  rw [mkd_cloud_far, statMean_noiseCloud, statStd_noiseCloud]
  intro hcon
  have hlt : Real.sqrt (547039 / 8712000) < 1097 / 660 :=
    (Real.sqrt_lt' (by norm_num)).mpr (by norm_num)
  linarith

lemma statFilter_noiseCloud : statFilter id noiseCloud = noiseCloudMid := by
  unfold statFilter
  exact noiseCloud_filter _
    (by simp only [decide_eq_true_eq]; exact statKeep_noiseCloud_core)
    (by simp only [decide_eq_true_eq]; exact statKeep_noiseCloud_mid)
    (by simp only [decide_eq_false_iff_not]; exact statKeep_noiseCloud_far)

lemma radiusFilter_noiseCloudMid : radiusFilter noiseCloudMid = noiseCloudMid := by
  unfold radiusFilter
  apply noiseCloudMid_filter_keep
  · simp only [decide_eq_true_eq]
    rw [noiseCloudMid_erase_core, List.filter_append,
      List.filter_replicate_of_pos (by
        simp only [decide_eq_true_eq, sqDist3_self]
        norm_num),
      List.filter_cons_of_pos (by
        simp only [decide_eq_true_eq]
        norm_num [sqDist3]),
      List.filter_nil]
    simp
  · simp only [decide_eq_true_eq]
    rw [noiseCloudMid_erase_mid,
      List.filter_replicate_of_pos (by
        simp only [decide_eq_true_eq]
        norm_num [sqDist3])]
    simp

lemma remove_noise_noiseCloud : remove_noise id noiseCloud = noiseCloudMid := by
  unfold remove_noise
  rw [statFilter_noiseCloud, radiusFilter_noiseCloudMid]

lemma mkd_mid_core : meanKDist id noiseCloudMid ((0, 0, 0) : Pt ℝ) = 1 / 1000 := by
  have heval := meanKDist_eval noiseCloudMid ((0, 0, 0) : Pt ℝ)
    (List.replicate 9 (0 : ℝ) ++ [1 / 10000]) (1 / 100)
    (by
      rw [noiseCloudMid_erase_core, List.map_append, List.map_replicate]
      norm_num [sqDist3])
    (by simp)
    (by
      rw [List.map_append, List.map_replicate]
      have h2 : Real.sqrt ((1 : ℝ) / 10000) = 1 / 100 :=
        sqrt_of_sq (by norm_num) (by norm_num)
      simp only [id_eq, Real.sqrt_zero, List.map_cons, List.map_nil, h2,
        List.sum_append, List.sum_replicate, smul_zero, List.sum_cons,
        List.sum_nil]
      norm_num)
  rw [heval]
  norm_num

lemma mkd_mid_mid : meanKDist id noiseCloudMid (((1 / 100 : ℝ), 0, 0) : Pt ℝ) =
    1 / 100 := by
  have heval := meanKDist_eval noiseCloudMid (((1 / 100 : ℝ), 0, 0) : Pt ℝ)
    (List.replicate 10 ((1 : ℝ) / 10000)) (1 / 10)
    (by
      rw [noiseCloudMid_erase_mid, List.map_replicate]
      norm_num [sqDist3])
    (by simp)
    (by
      rw [List.map_replicate]
      have h1 : Real.sqrt ((1 : ℝ) / 10000) = 1 / 100 :=
        sqrt_of_sq (by norm_num) (by norm_num)
      simp only [id_eq, h1, List.sum_replicate, nsmul_eq_mul]
      norm_num)
  rw [heval]
  norm_num

lemma statMean_noiseCloudMid : statMean id noiseCloudMid = 1 / 550 := by
  unfold statMean
  rw [noiseCloudMid_map, mkd_mid_core, mkd_mid_mid]
  simp only [meanR, List.sum_append, List.sum_replicate, List.sum_cons,
    List.sum_nil, nsmul_eq_mul, List.length_append, List.length_replicate,
    List.length_cons, List.length_nil]
  norm_num

lemma statStd_noiseCloudMid : statStd id noiseCloudMid =
    Real.sqrt (81 / 12100000) := by
  unfold statStd
  congr 1
  rw [statMean_noiseCloudMid, noiseCloudMid_map, mkd_mid_core, mkd_mid_mid]
  simp only [meanR, List.sum_append, List.sum_replicate, List.sum_cons,
    List.sum_nil, nsmul_eq_mul, List.length_append, List.length_replicate,
    List.length_cons, List.length_nil]
  norm_num

lemma statKeep_noiseCloudMid_core :
    statKeep id noiseCloudMid ((0, 0, 0) : Pt ℝ) := by
  unfold statKeep
  rw [mkd_mid_core, statMean_noiseCloudMid]
  have h := statStd_nonneg id noiseCloudMid
  nlinarith [h]

lemma statKeep_noiseCloudMid_mid :
    ¬ statKeep id noiseCloudMid (((1 / 100 : ℝ), 0, 0) : Pt ℝ) := by
  unfold statKeep
  rw [mkd_mid_mid, statMean_noiseCloudMid, statStd_noiseCloudMid]
  intro hcon
  have hlt : Real.sqrt (81 / 12100000) < 9 / 550 :=
    (Real.sqrt_lt' (by norm_num)).mpr (by norm_num)
  linarith

lemma remove_noise_noiseCloudMid : remove_noise id noiseCloudMid = [] := by
  unfold remove_noise
  have hstat : statFilter id noiseCloudMid =
      List.replicate 10 (((0, 0, 0) : Pt ℝ)) := by
    unfold statFilter
    exact noiseCloudMid_filter_drop _
      (by simp only [decide_eq_true_eq]; exact statKeep_noiseCloudMid_core)
      (by simp only [decide_eq_false_iff_not]; exact statKeep_noiseCloudMid_mid)
  rw [hstat, show (10 : ℕ) = 9 + 1 from rfl, radiusFilter_replicate 9,
    if_neg (by norm_num)]

end DenoiserLemmas

/-- Counterexample for C6: on `noiseCloud` (ten coincident core points, one
point 0.01 away, one point 1 away) the first denoiser run removes only the
far point, but a second run with the same parameters removes the 0.01 point
too (the statistics tighten once the far outlier is gone) and then the
radius filter starves the 10-point core below its 10-neighbor floor,
emptying the cloud: the two-stage denoiser is not idempotent. -/
theorem C6_denoiser_counterexample :
    remove_noise id noiseCloud = noiseCloudMid ∧
    remove_noise id (remove_noise id noiseCloud) = [] ∧
    remove_noise id (remove_noise id noiseCloud) ≠ remove_noise id noiseCloud := by
  refine ⟨remove_noise_noiseCloud, ?_, ?_⟩
  · rw [remove_noise_noiseCloud, remove_noise_noiseCloudMid]
  · rw [remove_noise_noiseCloud, remove_noise_noiseCloudMid]
    simp [noiseCloudMid]

/-- C6 (amended): re-running the two-stage denoiser removes zero further
points whenever the first run removed none; in general a second run may
remove further points, so the denoiser is not idempotent. -/
theorem C6_denoiser_fixed_point (pts : List (Pt ℝ))
    (h : remove_noise id pts = pts) :
    remove_noise id (remove_noise id pts) = remove_noise id pts := by
  rw [h]
  exact h

/-- Witness for C6 (amended) at the empty cloud, a fixed point of the
denoiser. -/
theorem C6_denoiser_fixed_point_witness :
    remove_noise id ([] : List (Pt ℝ)) = [] ∧
    remove_noise id (remove_noise id ([] : List (Pt ℝ))) =
      remove_noise id ([] : List (Pt ℝ)) :=
  ⟨rfl, C6_denoiser_fixed_point [] rfl⟩

/-- C9: when the output write fails, `process_ply_file` returns the
save-failure outcome but still hands the caller the already-computed
foot_length, foot_width and circumference, with `output_file = None`
flagging the unavailable file; the measurements are never discarded. -/
theorem C9_save_failure_keeps_measurements (input : PlyInput) (inliers : List ℕ)
    (pc : Pt ℝ) (outPath : String) (cl : Cloud ℚ) (l w c : ℝ)
    (hload : load_ply_file input = .ok (some cl))
    (hbig : ¬ ((remove_planes inliers (flip_y_axis cl)).points.map castPt).length < 3)
    (hdims : calculate_foot_dimensions id
      (remove_noise id (align_to_principal_component pc
        ((remove_planes inliers (flip_y_axis cl)).points.map castPt))) = .ok (l, w, c)) :
    process_ply_file input inliers pc false outPath =
      { success := false, error := some .saveFailed, foot_length := some l,
        foot_width := some w, circumference := some c, output_file := none,
        point_count := (remove_noise id (align_to_principal_component pc
          ((remove_planes inliers (flip_y_axis cl)).points.map castPt))).length } := by
  unfold process_ply_file
  rw [hload]
  simp only [if_neg hbig, hdims, Bool.false_eq_true, if_false]

/-- Witness for C9 at a concrete 11-point coincident cloud that survives
every filtering stage; the save oracle reports failure and the result
carries the computed measurements with no output file. -/
theorem C9_save_failure_keeps_measurements_witness :
    load_ply_file (some [("vertex", [("x", List.replicate 11 (0 : ℚ)),
        ("y", List.replicate 11 (0 : ℚ)), ("z", List.replicate 11 (0 : ℚ))])]) =
      .ok (some ⟨List.replicate 11 ((0 : ℚ), 0, 0), none, none⟩) ∧
    process_ply_file (some [("vertex", [("x", List.replicate 11 (0 : ℚ)),
        ("y", List.replicate 11 (0 : ℚ)), ("z", List.replicate 11 (0 : ℚ))])])
        [] ((0 : ℝ), 1, 0) false "out.ply" =
      { success := false, error := some .saveFailed, foot_length := some 0,
        foot_width := some 0, circumference := some 0, output_file := none,
        point_count := 11 } := by
  have hload : load_ply_file (some [("vertex", [("x", List.replicate 11 (0 : ℚ)),
      ("y", List.replicate 11 (0 : ℚ)), ("z", List.replicate 11 (0 : ℚ))])]) =
      .ok (some ⟨List.replicate 11 ((0 : ℚ), 0, 0), none, none⟩) := by rfl
  have hflip : flip_y_axis (Cloud.mk (List.replicate 11 ((0 : ℚ), 0, 0)) none none) =
      Cloud.mk (List.replicate 11 ((0 : ℚ), 0, 0)) none none := by
    simp [flip_y_axis]
  have hplanes : remove_planes []
      (Cloud.mk (List.replicate 11 ((0 : ℚ), 0, 0)) none none) =
      Cloud.mk (List.replicate 11 ((0 : ℚ), 0, 0)) none none := by
    simp [remove_planes]
  have hcast : (List.replicate 11 ((0 : ℚ), 0, 0)).map castPt =
      List.replicate 11 ((0 : ℝ), 0, 0) := by
    simp [castPt]
  have hchain : (remove_planes [] (flip_y_axis
      (Cloud.mk (List.replicate 11 ((0 : ℚ), 0, 0)) none none))).points.map castPt =
      List.replicate 11 ((0 : ℝ), 0, 0) := by
    rw [hflip, hplanes, hcast]
  have hbig : ¬ ((remove_planes [] (flip_y_axis
      (Cloud.mk (List.replicate 11 ((0 : ℚ), 0, 0)) none none))).points.map castPt).length < 3 := by
    rw [hchain]
    simp
  have hdims : calculate_foot_dimensions id
      (remove_noise id (align_to_principal_component ((0 : ℝ), 1, 0)
        ((remove_planes [] (flip_y_axis
          (Cloud.mk (List.replicate 11 ((0 : ℚ), 0, 0)) none none))).points.map castPt))) =
      .ok (0, 0, 0) := by
    rw [hchain, align_skip_vertical, remove_noise_replicate_eleven,
      dims_replicate_eleven]
  have := C9_save_failure_keeps_measurements
    (some [("vertex", [("x", List.replicate 11 (0 : ℚ)),
      ("y", List.replicate 11 (0 : ℚ)), ("z", List.replicate 11 (0 : ℚ))])])
    [] ((0 : ℝ), 1, 0) "out.ply"
    (Cloud.mk (List.replicate 11 ((0 : ℚ), 0, 0)) none none) 0 0 0 hload hbig hdims
  refine ⟨hload, ?_⟩
  rw [this, hchain, align_skip_vertical, remove_noise_replicate_eleven]
  simp

/-- C5 (amended): when the denoiser (or any prior filtering) leaves the
pipeline with an empty position array, `process_ply_file` returns a hard
failure — `success = false` carrying the empty-reduction exception raised
where the empty cloud is first consumed — and all three measurements are
`None` (never zero-valued), the output file is `None` and the point count
is 0. -/
theorem C5_empty_cloud_hard_failure (input : PlyInput) (inliers : List ℕ)
    (pc : Pt ℝ) (saveOk : Bool) (outPath : String) (cl : Cloud ℚ)
    (hload : load_ply_file input = .ok (some cl))
    (hbig : ¬ ((remove_planes inliers (flip_y_axis cl)).points.map castPt).length < 3)
    (hempty : remove_noise id (align_to_principal_component pc
      ((remove_planes inliers (flip_y_axis cl)).points.map castPt)) = []) :
    process_ply_file input inliers pc saveOk outPath =
      { success := false, error := some (.exceptionRaised .emptyReduce),
        foot_length := none, foot_width := none, circumference := none,
        output_file := none, point_count := 0 } := by
  have hdims : calculate_foot_dimensions id
      (remove_noise id (align_to_principal_component pc
        ((remove_planes inliers (flip_y_axis cl)).points.map castPt))) =
      .error .emptyReduce := by
    rw [hempty]
    rfl
  unfold process_ply_file
  rw [hload]
  simp only [if_neg hbig, hdims]

/-- Counterexample for C5 as stated: a 3-point cloud that the radius filter
of the denoiser empties entirely.  The pipeline does report a hard failure
with `None` measurements, but the failure carries only the numpy
empty-reduction exception, which is raised by the dimension calculator —
the report does not identify the denoiser, the filtering stage that
actually produced zero points. -/
theorem C5_stage_identification_counterexample :
    ((remove_planes [] (flip_y_axis
        (Cloud.mk (List.replicate 3 ((0 : ℚ), 0, 0)) none none))).points.map castPt ≠ [] ∧
      remove_noise id (align_to_principal_component ((0 : ℝ), 1, 0)
        ((remove_planes [] (flip_y_axis
          (Cloud.mk (List.replicate 3 ((0 : ℚ), 0, 0)) none none))).points.map castPt)) = []) ∧
    process_ply_file (some [("vertex", [("x", List.replicate 3 (0 : ℚ)),
        ("y", List.replicate 3 (0 : ℚ)), ("z", List.replicate 3 (0 : ℚ))])])
        [] ((0 : ℝ), 1, 0) true "out.ply" =
      { success := false, error := some (.exceptionRaised .emptyReduce),
        foot_length := none, foot_width := none, circumference := none,
        output_file := none, point_count := 0 } ∧
    PyExc.raisedBy .emptyReduce = Stage.dimensionCalculator ∧
    Stage.dimensionCalculator ≠ Stage.denoiser := by
  have hload : load_ply_file (some [("vertex", [("x", List.replicate 3 (0 : ℚ)),
      ("y", List.replicate 3 (0 : ℚ)), ("z", List.replicate 3 (0 : ℚ))])]) =
      .ok (some ⟨List.replicate 3 ((0 : ℚ), 0, 0), none, none⟩) := by rfl
  have hflip : flip_y_axis (Cloud.mk (List.replicate 3 ((0 : ℚ), 0, 0)) none none) =
      Cloud.mk (List.replicate 3 ((0 : ℚ), 0, 0)) none none := by
    simp [flip_y_axis]
  have hplanes : remove_planes []
      (Cloud.mk (List.replicate 3 ((0 : ℚ), 0, 0)) none none) =
      Cloud.mk (List.replicate 3 ((0 : ℚ), 0, 0)) none none := by
    simp [remove_planes]
  have hchain : (remove_planes [] (flip_y_axis
      (Cloud.mk (List.replicate 3 ((0 : ℚ), 0, 0)) none none))).points.map castPt =
      List.replicate 3 ((0 : ℝ), 0, 0) := by
    rw [hflip, hplanes]
    simp [castPt]
  have hbig : ¬ ((remove_planes [] (flip_y_axis
      (Cloud.mk (List.replicate 3 ((0 : ℚ), 0, 0)) none none))).points.map castPt).length < 3 := by
    rw [hchain]
    simp
  have hempty : remove_noise id (align_to_principal_component ((0 : ℝ), 1, 0)
      ((remove_planes [] (flip_y_axis
        (Cloud.mk (List.replicate 3 ((0 : ℚ), 0, 0)) none none))).points.map castPt)) = [] := by
    rw [hchain, align_skip_vertical, remove_noise_replicate_three]
  have hdims : calculate_foot_dimensions id
      (remove_noise id (align_to_principal_component ((0 : ℝ), 1, 0)
        ((remove_planes [] (flip_y_axis
          (Cloud.mk (List.replicate 3 ((0 : ℚ), 0, 0)) none none))).points.map castPt))) =
      .error .emptyReduce := by
    rw [hempty]
    rfl
  refine ⟨⟨by rw [hchain]; simp, hempty⟩, ?_, rfl, by simp⟩
  unfold process_ply_file
  rw [hload]
  simp only [if_neg hbig, hdims]

/-- Witness for C5 (amended), reusing the emptied 3-point run with a
different save oracle value to discharge every hypothesis concretely. -/
theorem C5_empty_cloud_hard_failure_witness :
    load_ply_file (some [("vertex", [("x", List.replicate 3 (0 : ℚ)),
        ("y", List.replicate 3 (0 : ℚ)), ("z", List.replicate 3 (0 : ℚ))])]) =
      .ok (some ⟨List.replicate 3 ((0 : ℚ), 0, 0), none, none⟩) ∧
    process_ply_file (some [("vertex", [("x", List.replicate 3 (0 : ℚ)),
        ("y", List.replicate 3 (0 : ℚ)), ("z", List.replicate 3 (0 : ℚ))])])
        [] ((0 : ℝ), 1, 0) false "out2.ply" =
      { success := false, error := some (.exceptionRaised .emptyReduce),
        foot_length := none, foot_width := none, circumference := none,
        output_file := none, point_count := 0 } := by
  have hload : load_ply_file (some [("vertex", [("x", List.replicate 3 (0 : ℚ)),
      ("y", List.replicate 3 (0 : ℚ)), ("z", List.replicate 3 (0 : ℚ))])]) =
      .ok (some ⟨List.replicate 3 ((0 : ℚ), 0, 0), none, none⟩) := by rfl
  have hflip : flip_y_axis (Cloud.mk (List.replicate 3 ((0 : ℚ), 0, 0)) none none) =
      Cloud.mk (List.replicate 3 ((0 : ℚ), 0, 0)) none none := by
    simp [flip_y_axis]
  have hplanes : remove_planes []
      (Cloud.mk (List.replicate 3 ((0 : ℚ), 0, 0)) none none) =
      Cloud.mk (List.replicate 3 ((0 : ℚ), 0, 0)) none none := by
    simp [remove_planes]
  have hchain : (remove_planes [] (flip_y_axis
      (Cloud.mk (List.replicate 3 ((0 : ℚ), 0, 0)) none none))).points.map castPt =
      List.replicate 3 ((0 : ℝ), 0, 0) := by
    rw [hflip, hplanes]
    simp [castPt]
  have hbig : ¬ ((remove_planes [] (flip_y_axis
      (Cloud.mk (List.replicate 3 ((0 : ℚ), 0, 0)) none none))).points.map castPt).length < 3 := by
    rw [hchain]
    simp
  have hempty : remove_noise id (align_to_principal_component ((0 : ℝ), 1, 0)
      ((remove_planes [] (flip_y_axis
        (Cloud.mk (List.replicate 3 ((0 : ℚ), 0, 0)) none none))).points.map castPt)) = [] := by
    rw [hchain, align_skip_vertical, remove_noise_replicate_three]
  exact ⟨hload, C5_empty_cloud_hard_failure _ [] ((0 : ℝ), 1, 0) false "out2.ply"
    (Cloud.mk (List.replicate 3 ((0 : ℚ), 0, 0)) none none) hload hbig hempty⟩

/-- Witness for C3 at a concrete 100-point cloud and a 50-element inlier
set: both policy thresholds are met and the removal branch is taken. -/
theorem C3_remove_planes_policy_witness :
    100 ≤ (Cloud.mk (α := ℚ) (List.replicate 100 (0, 0, 0)) none none).points.length ∧
    50 ≤ (List.range 50).length ∧
    (remove_planes (List.range 50)
        (Cloud.mk (α := ℚ) (List.replicate 100 (0, 0, 0)) none none)).points =
      keepComplement (List.range 50) (List.replicate 100 ((0 : ℚ), (0 : ℚ), (0 : ℚ))) :=
  ⟨by simp, by simp,
    ((C3_remove_planes_policy (List.range 50)
      (Cloud.mk (List.replicate 100 (0, 0, 0)) none none)).2.2
      (by simp) (by simp)).1⟩

end FootMeasure
